import Mathlib

/-!
Shallow embedding of the openGemini cluster-metadata catalog (`Data` in
package `meta`, file `src/unnamed/part_000`) and proofs about it.

Conventions of the embedding:
* Go `time.Time` values are nanosecond timestamps, embedded as `Int`.
* Go `uint64` / `uint32` identifiers are embedded as `Nat` (no catalog
  operation relies on wrap-around of these counters).
* Go maps keyed by strings are embedded as association lists
  (`List (String × α)`); lookup returns the first binding, insertion
  prepends, which matches Go map lookup/insert semantics for the
  operations modelled here (no catalog operation depends on map
  iteration order for the properties proved below).
* Go slices are `List α`; in-place element updates are `List.set`.
* Fallible operations return the pair of the new state and an
  `Option Err`; a `some` error always comes with the unchanged state,
  which is faithful to the source because the source mutates only after
  its precondition checks (or stages changes and swaps at the end).
-/

namespace OpenGeminiMeta

/-- Error taxonomy: the tagged error variants of the source that the claims
mention, plus a `generic` constructor for `fmt.Errorf`-produced errors. -/
inductive Err where
  | databaseNotFound
  | databaseIsBeingDelete
  | databaseNameRequired
  | storageNodeNotReady
  | databaseExists
  | retentionPolicyNotFound
  | retentionPolicyRequired
  | retentionPolicyNameRequired
  | replicationFactorTooLow
  | replicaNConflict
  | retentionPolicyConflict
  | retentionPolicyExists
  | measurementNotFound
  | fieldTypeConflict
  | shardGroupNotFound
  | shardGroupAlreadyReSharding
  | dataNodeNotFound
  | olderEvent
  | dataNodeSplitBrain
  | userExists
  | usernameRequired
  | userForbidden
  | userDropSelf
  | userNotFound
  | pwdUsed
  | grantOrRevokeAdmin
  | replicaNodeNumIncorrect
  | generic (msg : String)
  deriving DecidableEq, Repr

/-- `models.MaxNanoTime`: the largest representable nanosecond timestamp. -/
def maxNanoTime : Int := 9223372036854775806

/-- Go `time.Time.Truncate(d)` for positive `d`: round down to a multiple
of the duration. -/
def truncateTime (t d : Int) : Int := t - t % d

/-- `IndexInfo`: one per-pt index inside an index group. -/
structure IndexInfo where
  id : Nat
  owners : List Nat
  markDelete : Bool := false
  deriving DecidableEq, Repr

/-- `IndexGroupInfo`: a time-bucketed group of per-pt indexes.
`deletedAt = 0` encodes Go's zero `time.Time` (`DeletedAt.IsZero()`). -/
structure IndexGroupInfo where
  id : Nat
  startTime : Int
  endTime : Int
  engineType : Nat := 0
  indexes : List IndexInfo
  deletedAt : Int := 0
  deriving DecidableEq, Repr

/-- `ShardInfo`. Go's zero string stands for an absent `Min`/`Max` bound. -/
structure ShardInfo where
  id : Nat
  owners : List Nat := []
  indexID : Nat := 0
  tier : Nat := 0
  min : String := ""
  max : String := ""
  markDelete : Bool := false
  deriving DecidableEq, Repr

/-- `ShardGroupInfo`: a time-bucketed group of shards, half-open
time range `[startTime, endTime)`. -/
structure ShardGroupInfo where
  id : Nat
  startTime : Int
  endTime : Int
  engineType : Nat := 0
  version : Nat := 0
  shards : List ShardInfo
  deletedAt : Int := 0
  deriving DecidableEq, Repr

/-- `ShardKeyInfo`: the measurement sharding descriptor; `typ` is the Go
`Type` field, either `"hash"` or `"range"`. -/
structure ShardKeyInfo where
  shardKey : List String := []
  typ : String := "hash"
  shardGroup : Nat := 0
  deriving DecidableEq, Repr

/-- `MeasurementInfo`: `schema` is the Go `map[string]int32` field-type map. -/
structure MeasurementInfo where
  name : String
  shardKeys : List ShardKeyInfo := []
  schema : List (String × Int) := []
  engineType : Nat := 0
  markDeleted : Bool := false
  deriving DecidableEq, Repr

/-- `RetentionPolicyInfo`; durations are nanoseconds. -/
structure RetentionPolicyInfo where
  name : String
  replicaN : Nat := 1
  duration : Int := 0
  shardGroupDuration : Int := 0
  indexGroupDuration : Int := 0
  hotDuration : Int := 0
  warmDuration : Int := 0
  measurements : List (String × MeasurementInfo) := []
  shardGroups : List ShardGroupInfo := []
  indexGroups : List IndexGroupInfo := []
  markDeleted : Bool := false
  deriving DecidableEq, Repr

/-- `DatabaseInfo`. -/
structure DatabaseInfo where
  name : String
  defaultRetentionPolicy : String := ""
  retentionPolicies : List (String × RetentionPolicyInfo) := []
  shardKey : ShardKeyInfo := {}
  replicaN : Nat := 0
  enableTagArray : Bool := false
  markDeleted : Bool := false
  deriving DecidableEq, Repr

/-- `PtStatus`: `Offline = 0`, `Online = 1`. -/
inductive PtStatus where
  | offline
  | online
  deriving DecidableEq, Repr

/-- `PtInfo`: one entry of a database pt-view. -/
structure PtInfo where
  ownerNodeID : Nat := 0
  status : PtStatus := .offline
  ptId : Nat := 0
  ver : Nat := 0
  rgID : Nat := 0
  deriving DecidableEq, Repr

/-- Peer role inside a replica group. -/
inductive PtRole where
  | master
  | slave
  deriving DecidableEq, Repr

/-- `Peer`: a slave member of a replica group. -/
structure Peer where
  id : Nat
  ptRole : PtRole := .slave
  deriving DecidableEq, Repr

/-- Replica-group health status; `health` is the initial value. -/
inductive RGStatus where
  | health
  | subHealth
  | unHealth
  deriving DecidableEq, Repr

/-- `ReplicaGroup`. -/
structure ReplicaGroup where
  id : Nat := 0
  masterPtID : Nat := 0
  peers : List Peer := []
  status : RGStatus := .health
  term : Nat := 0
  deriving DecidableEq, Repr

/-- serf member statuses consumed from the gossip layer:
none = 0, alive = 1, leaving = 2, left = 3, failed = 4. -/
def statusAlive : Nat := 1

/-- `DataNode`: the node-registry entry (NodeInfo fields inlined). -/
structure DataNode where
  id : Nat
  host : String := ""
  tcpHost : String := ""
  role : String := "writer"
  status : Nat := 0
  segregateStatus : Nat := 0
  lTime : Nat := 0
  gossipAddr : String := ""
  connID : Nat := 0
  aliveConnID : Nat := 0
  deriving DecidableEq, Repr

/-- `UserInfo`; `privileges` is the per-database privilege map. -/
structure UserInfo where
  name : String
  hash : String := ""
  admin : Bool := false
  rwuser : Bool := false
  privileges : List (String × Nat) := []
  deriving DecidableEq, Repr

/-- The top-level catalog state `Data` (the fields the claims exercise). -/
structure Data where
  clusterPtNum : Nat := 0
  ptNumPerNode : Nat := 0
  dataNodes : List DataNode := []
  ptView : List (String × List PtInfo) := []
  replicaGroups : List (String × List ReplicaGroup) := []
  databases : List (String × DatabaseInfo) := []
  users : List UserInfo := []
  adminUserExists : Bool := false
  takeOverEnabled : Bool := false
  maxShardGroupID : Nat := 0
  maxShardID : Nat := 0
  maxIndexGroupID : Nat := 0
  maxIndexID : Nat := 0
  deriving DecidableEq, Repr

/-- Replace the value bound to `k` (first binding) in an association list. -/
def updateAssoc (l : List (String × α)) (k : String) (v : α) : List (String × α) :=
  match l with
  | [] => []
  | (k0, v0) :: rest =>
    if k0 = k then (k0, v) :: rest else (k0, v0) :: updateAssoc rest k v

/-- `data.DBReplicaN(db)`: the database replication factor, zero mapped to 1.
The source indexes `data.Databases[db]` unchecked; callers guarantee the
database exists, and a missing database is mapped to factor 1 here. -/
def Data.dbReplicaN (d : Data) (db : String) : Nat :=
  match d.databases.lookup db with
  | some dbi => if dbi.replicaN = 0 then 1 else dbi.replicaN
  | none => 1

/-- `data.DBRepGroups(db)`. -/
def Data.dbRepGroups (d : Data) (db : String) : List ReplicaGroup :=
  (d.replicaGroups.lookup db).getD []

/-- `data.DBPtView(db)`. -/
def Data.dbPtView (d : Data) (db : String) : List PtInfo :=
  (d.ptView.lookup db).getD []

/-- `data.GetEffectivePtNum(db)`. -/
def Data.getEffectivePtNum (d : Data) (db : String) : Nat :=
  if d.dbReplicaN db = 1 then d.clusterPtNum
  else d.dbReplicaN db * (d.dbRepGroups db).length

/-- `data.Database(name)` (plain map lookup). -/
def Data.database (d : Data) (name : String) : Option DatabaseInfo :=
  d.databases.lookup name

/-- `data.GetDatabase(name)`: errors on a missing or mark-deleted database. -/
def Data.getDatabase (d : Data) (name : String) : Except Err DatabaseInfo :=
  match d.database name with
  | none => .error .databaseNotFound
  | some dbi =>
    if dbi.markDeleted then .error .databaseIsBeingDelete else .ok dbi

/-- Modelled from the spec: `DatabaseInfo.GetRetentionPolicy` is not under
`src/`; per the spec an RP registry lookup that fails with
`RetentionPolicyNotFound` when the name is unbound. -/
def DatabaseInfo.getRetentionPolicy (dbi : DatabaseInfo) (name : String) :
    Except Err RetentionPolicyInfo :=
  match dbi.retentionPolicies.lookup name with
  | none => .error .retentionPolicyNotFound
  | some rp => .ok rp

/-- `data.RetentionPolicy(db, name)`. -/
def Data.retentionPolicy (d : Data) (db name : String) :
    Except Err RetentionPolicyInfo := do
  let dbi ← d.getDatabase db
  dbi.getRetentionPolicy name

/-- Modelled from the spec: `RetentionPolicyInfo.Measurement` is not under
`src/`; it resolves a measurement name in the RP's measurement registry. -/
def RetentionPolicyInfo.measurement (rp : RetentionPolicyInfo) (mst : String) :
    Option MeasurementInfo :=
  rp.measurements.lookup mst

/-- `data.Measurement(db, rp, mst)`: lookup refusing mark-deleted
measurements. -/
def Data.measurement (d : Data) (db rpName mst : String) :
    Except Err MeasurementInfo := do
  let dbi ← d.getDatabase db
  let rp ← dbi.getRetentionPolicy rpName
  match rp.measurement mst with
  | none => .error .measurementNotFound
  | some msti =>
    if msti.markDeleted then .error .measurementNotFound else .ok msti

/-- One supplied field of `UpdateSchema` (`proto2.FieldSchema`). -/
structure FieldSchema where
  fieldName : String
  fieldType : Int
  deriving DecidableEq, Repr

/-- The field loop of `data.UpdateSchema`: walks `fieldToCreate` over the
staged copy `schema`; an absent field is inserted, a present field with a
different type aborts with `ErrFieldTypeConflict`. -/
def updateSchemaLoop (schema : List (String × Int)) :
    List FieldSchema → Except Err (List (String × Int))
  | [] => .ok schema
  | f :: rest =>
    match schema.lookup f.fieldName with
    | none => updateSchemaLoop ((f.fieldName, f.fieldType) :: schema) rest
    | some t =>
      if t = f.fieldType then updateSchemaLoop schema rest
      else .error .fieldTypeConflict

/-- Replace the measurement `mst` of retention policy `rpName` of database
`db` inside the catalog (the write-back of a staged measurement update). -/
def Data.setMeasurement (d : Data) (db rpName mst : String)
    (msti : MeasurementInfo) : Data :=
  let newRp : RetentionPolicyInfo → RetentionPolicyInfo := fun rp =>
    { rp with measurements := updateAssoc rp.measurements mst msti }
  let newDb : DatabaseInfo → DatabaseInfo := fun dbi =>
    match dbi.retentionPolicies.lookup rpName with
    | none => dbi
    | some rp =>
      { dbi with retentionPolicies :=
          updateAssoc dbi.retentionPolicies rpName (newRp rp) }
  match d.databases.lookup db with
  | none => d
  | some dbi =>
    { d with databases := updateAssoc d.databases db (newDb dbi) }

/-- `data.UpdateSchema(db, rp, mst, fieldToCreate)`: stage a copy of the
measurement schema, validate and extend it per field, and swap it in only
when every field validated. -/
def Data.updateSchema (d : Data) (db rpName mst : String)
    (fieldToCreate : List FieldSchema) : Data × Option Err :=
  match d.measurement db rpName mst with
  | .error e => (d, some e)
  | .ok msti =>
    match updateSchemaLoop msti.schema fieldToCreate with
    | .error e => (d, some e)
    | .ok schema => (d.setMeasurement db rpName mst { msti with schema }, none)

/-- `data.checkStoreReady()`. -/
def Data.checkStoreReady (d : Data) : Option Err :=
  if d.clusterPtNum = 0 then some .storageNodeNotReady else none

/-- `data.CheckCanCreateDatabase(name)`: empty name, storage readiness,
then the existence / mark-deleted checks, in source order. -/
def Data.checkCanCreateDatabase (d : Data) (name : String) : Option Err :=
  if name = "" then some .databaseNameRequired
  else
    match d.checkStoreReady with
    | some e => some e
    | none =>
      match d.database name with
      | none => none
      | some dbi =>
        if dbi.markDeleted then
          some (.generic "cant create same DB Name when DB is being deleted")
        else some .databaseExists

/-- Modelled from the spec: `RetentionPolicyInfo.CheckSpecValid` is not under
`src/`; per the spec an RP must satisfy `min_duration ≤ duration` (or a zero
infinite duration) and `shard_group_duration ≤ index_group_duration`. -/
def RetentionPolicyInfo.checkSpecValid (rp : RetentionPolicyInfo) : Option Err :=
  if (rp.duration = 0 ∨ 3600000000000 ≤ rp.duration) ∧
      rp.shardGroupDuration ≤ rp.indexGroupDuration then none
  else some (.generic "invalid retention policy spec")

/-- Modelled from the spec: `RetentionPolicyInfo.EqualsAnotherRp` is not
under `src/`; per the spec it compares the RP definitions (identity of the
definitional fields). -/
def RetentionPolicyInfo.equalsAnotherRp (a b : RetentionPolicyInfo) : Bool :=
  a.name = b.name ∧ a.replicaN = b.replicaN ∧ a.duration = b.duration ∧
    a.shardGroupDuration = b.shardGroupDuration ∧
    a.indexGroupDuration = b.indexGroupDuration ∧
    a.hotDuration = b.hotDuration ∧ a.warmDuration = b.warmDuration

/-- `data.CheckCanCreateRetentionPolicy(dbi, rpi, makeDefault)`. -/
def Data.checkCanCreateRetentionPolicy (dbi : DatabaseInfo)
    (rpi : RetentionPolicyInfo) (makeDefault : Bool) : Option Err :=
  if rpi.name = "" then some .retentionPolicyNameRequired
  else if rpi.replicaN < 1 then some .replicationFactorTooLow
  else
    match rpi.checkSpecValid with
    | some e => some e
    | none =>
      match dbi.retentionPolicies.lookup rpi.name with
      | none =>
        if dbi.replicaN ≠ 0 ∧ rpi.replicaN ≠ dbi.replicaN then
          some .replicaNConflict
        else none
      | some existRp =>
        if ¬ existRp.equalsAnotherRp rpi then some .retentionPolicyConflict
        else if makeDefault ∧ dbi.defaultRetentionPolicy ≠ rpi.name then
          some .retentionPolicyConflict
        else some .retentionPolicyExists

/-- `data.SetRetentionPolicy(dbi, rpi, makeDefault)`. -/
def DatabaseInfo.setRetentionPolicy (dbi : DatabaseInfo)
    (rpi : RetentionPolicyInfo) (makeDefault : Bool) : DatabaseInfo :=
  let dbi := { dbi with retentionPolicies :=
    (rpi.name, rpi) :: dbi.retentionPolicies }
  if makeDefault then { dbi with defaultRetentionPolicy := rpi.name } else dbi

/-- `data.CreateDatabase(name, rpi, shardKey, enableTagArray, replicaN,
options)`: `ErrDatabaseExists` from the pre-check is converted into a
success before any argument of the request is consulted. -/
def Data.createDatabase (d : Data) (dbName : String)
    (rpi : Option RetentionPolicyInfo) (shardKey : Option ShardKeyInfo)
    (enableTagArray : Bool) (replicaN : Nat) : Data × Option Err :=
  match d.checkCanCreateDatabase dbName with
  | some .databaseExists => (d, none)
  | some e => (d, some e)
  | none =>
    let dbi : DatabaseInfo := { name := dbName }
    let step : Except Err DatabaseInfo :=
      match rpi with
      | none => .ok dbi
      | some rp =>
        match Data.checkCanCreateRetentionPolicy dbi rp true with
        | some e => .error e
        | none => .ok (dbi.setRetentionPolicy rp true)
    match step with
    | .error e => (d, some e)
    | .ok dbi =>
      let dbi := match shardKey with
        | some sk => { dbi with shardKey := sk }
        | none => dbi
      let dbi := { dbi with enableTagArray, replicaN }
      ({ d with databases := (dbName, dbi) :: d.databases }, none)

/-- The HA placement policy (`config.GetHaPolicy()`), a process-global
configuration value, passed explicitly. -/
inductive HaPolicy where
  | writeAvailableFirst
  | sharedStorage
  | replication
  deriving DecidableEq, Repr

/-- `data.DataNode(id)`: first node with the id. -/
def Data.dataNode (d : Data) (id : Nat) : Option DataNode :=
  d.dataNodes.find? (fun n => n.id = id)

/-- The node-field updates of `UpdateNodeStatus` once the event is accepted:
status, logical time, `AliveConnID` on alive, and the gossip address when it
was still empty (`net.SplitHostPort` keeps the part before the colon). -/
def updateNodeFields (dn : DataNode) (status lTime : Nat) (gossipPort : String) :
    DataNode :=
  let dn := { dn with status := status, lTime := lTime }
  let dn := if status = statusAlive then { dn with aliveConnID := dn.connID } else dn
  if dn.gossipAddr = "" then
    { dn with gossipAddr := (dn.host.splitOn ":").headD "" ++ ":" ++ gossipPort }
  else dn

/-- `data.updatePtViewStatus(nid, status)`: every pt of every database owned
by the node gets the status and a version bump. -/
def Data.updatePtViewStatus (d : Data) (nid : Nat) (status : PtStatus) : Data :=
  { d with ptView := d.ptView.map (fun p =>
      (p.1, p.2.map (fun pt =>
        if pt.ownerNodeID = nid then
          { pt with status := status, ver := pt.ver + 1 }
        else pt))) }

/-- Replace the first data node carrying `id`. -/
def Data.setDataNode (d : Data) (id : Nat) (dn : DataNode) : Data :=
  { d with dataNodes := d.dataNodes.map (fun n => if n.id = id then dn else n) }

/-- `data.UpdateNodeStatus(id, status, lTime, gossipPort)`: gated by
`TakeOverEnabled`, refuses older logical times, detects split brain under
the shared-storage policy, then updates the node and offlines its pts. -/
def Data.updateNodeStatus (haPolicy : HaPolicy) (d : Data) (id status lTime : Nat)
    (gossipPort : String) : Data × Option Err :=
  if ¬ d.takeOverEnabled then (d, none)
  else
    match d.dataNode id with
    | none => (d, some .dataNodeNotFound)
    | some dn =>
      if lTime < dn.lTime then (d, some .olderEvent)
      else if haPolicy = .sharedStorage ∧ status = statusAlive ∧
          dn.connID = dn.aliveConnID then
        (d, some .dataNodeSplitBrain)
      else
        let d := d.setDataNode id (updateNodeFields dn status lTime gossipPort)
        (d.updatePtViewStatus id .offline, none)

/-- `data.GetUser(username)`: first user with the name. -/
def Data.getUser (d : Data) (username : String) : Option UserInfo :=
  d.users.find? (fun u => u.name = username)

/-- `data.HasAdminUser()`: exhaustive scan for an admin. -/
def Data.hasAdminUser (d : Data) : Bool :=
  d.users.any (fun u => u.admin)

/-- `data.CreateUser(name, hash, admin, rwuser)`. -/
def Data.createUser (d : Data) (name hash : String) (admin rwuser : Bool) :
    Data × Option Err :=
  if name = "" then (d, some .usernameRequired)
  else if (d.getUser name).isSome then (d, some .userExists)
  else if admin ∧ d.hasAdminUser then (d, some .userForbidden)
  else
    let d := { d with users := d.users ++ [{ name, hash, admin, rwuser }] }
    (if admin then { d with adminUserExists := true } else d, none)

/-- The removal loop of `DropUser`: delete the first user with the name. -/
def removeFirstUser (name : String) : List UserInfo → Option (List UserInfo)
  | [] => none
  | u :: rest =>
    if u.name = name then some rest
    else (removeFirstUser name rest).map (u :: ·)

/-- `data.DropUser(name)`: refuses to drop an admin, then removes the first
user with the name. -/
def Data.dropUser (d : Data) (name : String) : Data × Option Err :=
  match d.getUser name with
  | some u =>
    if u.admin then (d, some .userDropSelf)
    else
      match removeFirstUser name d.users with
      | some users => ({ d with users }, none)
      | none => (d, some .userNotFound)
  | none =>
    match removeFirstUser name d.users with
    | some users => ({ d with users }, none)
    | none => (d, some .userNotFound)

/-- The update loop of `UpdateUser`: rehash the first user with the name,
refusing an unchanged hash. -/
def updateFirstUserHash (name hash : String) :
    List UserInfo → Except Err (List UserInfo)
  | [] => .error .userNotFound
  | u :: rest =>
    if u.name = name then
      if u.hash = hash then .error .pwdUsed
      else .ok ({ u with hash } :: rest)
    else (updateFirstUserHash name hash rest).map (u :: ·)

/-- `data.UpdateUser(name, hash)`. -/
def Data.updateUser (d : Data) (name hash : String) : Data × Option Err :=
  match updateFirstUserHash name hash d.users with
  | .error e => (d, some e)
  | .ok users => ({ d with users }, none)

/-- Apply `f` to the first user with the name (`GetUser` returns a pointer
to the first match, which the caller mutates in place). -/
def mapFirstUser (name : String) (f : UserInfo → UserInfo) :
    List UserInfo → List UserInfo
  | [] => []
  | u :: rest =>
    if u.name = name then f u :: rest else u :: mapFirstUser name f rest

/-- `data.SetPrivilege(name, database, p)`: requires the user and the
database, then rebinds the privilege of the first user with the name. -/
def Data.setPrivilege (d : Data) (name database : String) (p : Nat) :
    Data × Option Err :=
  match d.getUser name with
  | none => (d, some .userNotFound)
  | some _ =>
    match d.getDatabase database with
    | .error e => (d, some e)
    | .ok _ =>
      let addPriv : UserInfo → UserInfo := fun u =>
        { u with privileges := (database, p) :: u.privileges }
      ({ d with users := mapFirstUser name addPriv d.users }, none)

/-- `data.SetAdminPrivilege(name, admin)`: unconditionally refused for any
existing user. -/
def Data.setAdminPrivilege (d : Data) (name : String) (_admin : Bool) :
    Data × Option Err :=
  match d.getUser name with
  | none => (d, some .userNotFound)
  | some _ => (d, some .grantOrRevokeAdmin)

/-- `data.expandRepGroups(db, repNum)`: append `repNum` zero-value groups to
the database replica-group slice. -/
def Data.expandRepGroups (d : Data) (db : String) (repNum : Nat) : Data :=
  let rgs := d.dbRepGroups db ++ List.replicate repNum ({} : ReplicaGroup)
  { d with replicaGroups :=
      if (d.replicaGroups.lookup db).isSome then
        updateAssoc d.replicaGroups db rgs
      else (db, rgs) :: d.replicaGroups }

/-- Rebind the replica-group id of the pt at position `i` of a pt-view
(`ptView[i].RGID = rgId`; `List.set` is the slice store). -/
def setPtRGID (ptv : List PtInfo) (i rgId : Nat) : List PtInfo :=
  match ptv.get? i with
  | none => ptv
  | some pt => ptv.set i { pt with rgID := rgId }

/-- Modelled from the spec: `ReplicaGroup.init` is not under `src/`; per the
spec it assigns the id, master pt, slave peers, status and term. -/
def ReplicaGroup.initRG (id masterPtID : Nat) (peers : List Peer)
    (status : RGStatus) (term : Nat) : ReplicaGroup :=
  { id, masterPtID, peers, status, term }

/-- One `k` step of `createReplicationInner`: build the slave peers at
offsets `ptNumPerNode·(i+1)` from `ptIdx`, point their pts at the group,
store the group at index `repGroupId` with master `ptIdx`, and point the
master pt at the group. -/
def repGroupStep (replicaN ptNumPerNode ptIdx repGroupId : Nat)
    (rgs : List ReplicaGroup) (ptv : List PtInfo) :
    List ReplicaGroup × List PtInfo :=
  let slaves := (List.range (replicaN - 1)).map
    (fun i => ptIdx + ptNumPerNode * (i + 1))
  let peers : List Peer := slaves.map (fun s => { id := s, ptRole := .slave })
  let ptv := slaves.foldl (fun ptv s => setPtRGID ptv s repGroupId) ptv
  let rgs := match rgs.get? repGroupId with
    | none => rgs
    | some _ => rgs.set repGroupId
        (ReplicaGroup.initRG repGroupId ptIdx peers .health 0)
  (rgs, setPtRGID ptv ptIdx repGroupId)

/-- The inner `k < ptNumPerNode` loop of `createReplicationInner`: `ptIdx`
stays fixed for the whole burst while `repGroupId` advances. -/
def repInnerLoop (replicaN ptNumPerNode ptIdx : Nat) :
    Nat → Nat → List ReplicaGroup → List PtInfo →
    Nat × List ReplicaGroup × List PtInfo
  | 0, repGroupId, rgs, ptv => (repGroupId, rgs, ptv)
  | k + 1, repGroupId, rgs, ptv =>
    let (rgs, ptv) := repGroupStep replicaN ptNumPerNode ptIdx repGroupId rgs ptv
    repInnerLoop replicaN ptNumPerNode ptIdx k (repGroupId + 1) rgs ptv

/-- The outer `repGroupId < repEnd` loop of `createReplicationInner`.
`fuel` bounds the iterations; `repEnd` iterations always suffice because
every outer round increments `repGroupId` by `ptNumPerNode ≥ 1` (with
`ptNumPerNode = 0` the source loops forever; the model stops at the fuel). -/
def repOuterLoop (replicaN ptNumPerNode repEnd : Nat) :
    Nat → Nat → Nat → List ReplicaGroup → List PtInfo →
    List ReplicaGroup × List PtInfo
  | 0, _, _, rgs, ptv => (rgs, ptv)
  | fuel + 1, repGroupId, ptIdx, rgs, ptv =>
    if repGroupId < repEnd then
      let (repGroupId, rgs, ptv) :=
        repInnerLoop replicaN ptNumPerNode ptIdx ptNumPerNode repGroupId rgs ptv
      repOuterLoop replicaN ptNumPerNode repEnd fuel repGroupId
        (ptIdx + ptNumPerNode * replicaN) rgs ptv
    else (rgs, ptv)

/-- `data.createReplicationInner(db, replicaN, repStart, repEnd, ptStart)`. -/
def Data.createReplicationInner (d : Data) (db : String)
    (replicaN repStart repEnd ptStart : Nat) : Data :=
  let d := d.expandRepGroups db (repEnd - repStart)
  let (rgs, ptv) := repOuterLoop replicaN d.ptNumPerNode repEnd (repEnd + 1)
    repStart ptStart (d.dbRepGroups db) (d.dbPtView db)
  { d with replicaGroups := updateAssoc d.replicaGroups db rgs,
           ptView := updateAssoc d.ptView db ptv }

/-- `data.createReplicationImp(db, replicaN)`: requires the writer-node
count to divide evenly into replica groups, then creates the groups over
the whole pt range. -/
def Data.createReplicationImp (d : Data) (db : String) (replicaN : Nat) :
    Data × Option Err :=
  let ptNum := (d.dbPtView db).length
  let nodeNum := ptNum / d.ptNumPerNode
  if nodeNum % replicaN ≠ 0 then (d, some .replicaNodeNumIncorrect)
  else (d.createReplicationInner db replicaN 0 (ptNum / replicaN) 0, none)

/-- `data.CreateReplication(db, replicaN)`. -/
def Data.createReplication (d : Data) (db : String) (replicaN : Nat) :
    Data × Option Err :=
  if replicaN ≤ 1 then (d, none) else d.createReplicationImp db replicaN

/-- Modelled from the spec: `ShardGroupInfo.canDelete` is not under `src/`;
per the spec a group can go once its shards are all marked for delete. -/
def sgCanDelete (g : ShardGroupInfo) : Bool :=
  g.shards.all (fun s => s.markDelete)

/-- Modelled from the spec: `IndexGroupInfo.canDelete` is not under `src/`;
per the spec a group can go once its indexes are all marked for delete. -/
def igCanDelete (g : IndexGroupInfo) : Bool :=
  g.indexes.all (fun i => i.markDelete)

/-- The marking condition of `pruneShardGroups`:
`id >= Shards[0].ID && id <= Shards[len-1].ID`. -/
def sgIdInRange (id : Nat) (g : ShardGroupInfo) : Bool :=
  match g.shards.head?, g.shards.getLast? with
  | some a, some b => a.id ≤ id ∧ id ≤ b.id
  | _, _ => false

/-- `sort.Search` over the id-sorted shard slice: the least position whose
shard id is `≥ id`. -/
def searchShardPos (id : Nat) (shards : List ShardInfo) : Nat :=
  (shards.takeWhile (fun s => s.id < id)).length

/-- Mark the shard at a position for delete. -/
def markShardAt : List ShardInfo → Nat → List ShardInfo
  | [], _ => []
  | s :: rest, 0 => { s with markDelete := true } :: rest
  | s :: rest, n + 1 => s :: markShardAt rest n

/-- The per-group marking step of `pruneShardGroups`. -/
def markSGGroup (id : Nat) (g : ShardGroupInfo) : ShardGroupInfo :=
  if sgIdInRange id g then
    { g with shards := markShardAt g.shards (searchShardPos id g.shards) }
  else g

/-- The `idx` loop of `pruneShardGroups` over one RP's groups: mark, then
either remove the group (when `DeletedAt` is set and every shard is marked)
or keep it and advance. -/
def pruneSGPass (id : Nat) : List ShardGroupInfo → List ShardGroupInfo
  | [] => []
  | g :: rest =>
    let g := markSGGroup id g
    if g.deletedAt ≠ 0 ∧ sgCanDelete g then pruneSGPass id rest
    else g :: pruneSGPass id rest

/-- The analog of `sgIdInRange` for index groups. -/
def igIdInRange (id : Nat) (g : IndexGroupInfo) : Bool :=
  match g.indexes.head?, g.indexes.getLast? with
  | some a, some b => a.id ≤ id ∧ id ≤ b.id
  | _, _ => false

/-- `sort.Search` over the id-sorted index slice. -/
def searchIndexPos (id : Nat) (indexes : List IndexInfo) : Nat :=
  (indexes.takeWhile (fun i => i.id < id)).length

/-- Mark the index at a position for delete. -/
def markIndexAt : List IndexInfo → Nat → List IndexInfo
  | [], _ => []
  | i :: rest, 0 => { i with markDelete := true } :: rest
  | i :: rest, n + 1 => i :: markIndexAt rest n

/-- The per-group marking step of `pruneIndexGroups`. -/
def markIGGroup (id : Nat) (g : IndexGroupInfo) : IndexGroupInfo :=
  if igIdInRange id g then
    { g with indexes := markIndexAt g.indexes (searchIndexPos id g.indexes) }
  else g

/-- The `idx` loop of `pruneIndexGroups`: unlike the shard-group variant the
removal test consults only `canDelete`, never `DeletedAt`. -/
def pruneIGPass (id : Nat) : List IndexGroupInfo → List IndexGroupInfo
  | [] => []
  | g :: rest =>
    let g := markIGGroup id g
    if igCanDelete g then pruneIGPass id rest
    else g :: pruneIGPass id rest

/-- Rewrite every RP of one database with `f`. -/
def mapRpsDb (f : RetentionPolicyInfo → RetentionPolicyInfo)
    (dbi : DatabaseInfo) : DatabaseInfo :=
  { dbi with retentionPolicies :=
      dbi.retentionPolicies.map (fun q => (q.1, f q.2)) }

/-- Rewrite every RP of every database with `f`
(`WalkDatabases` + `WalkRetentionPolicy`). -/
def Data.mapRetentionPolicies (d : Data)
    (f : RetentionPolicyInfo → RetentionPolicyInfo) : Data :=
  { d with databases := d.databases.map (fun p => (p.1, mapRpsDb f p.2)) }

/-- `data.pruneShardGroups(id)`. -/
def Data.pruneShardGroups (d : Data) (id : Nat) : Data :=
  d.mapRetentionPolicies
    (fun rp => { rp with shardGroups := pruneSGPass id rp.shardGroups })

/-- `data.pruneIndexGroups(id)`. -/
def Data.pruneIndexGroups (d : Data) (id : Nat) : Data :=
  d.mapRetentionPolicies
    (fun rp => { rp with indexGroups := pruneIGPass id rp.indexGroups })

/-- Modelled from the spec: `IndexGroupInfo.Contains` is not under `src/`;
groups cover the half-open range `[startTime, endTime)`. -/
def igContains (ig : IndexGroupInfo) (t : Int) : Bool :=
  ig.startTime ≤ t ∧ t < ig.endTime

/-- Modelled from the spec: `IndexGroupInfo.Overlaps(min, max)` is not under
`src/`; a half-open group range intersects the queried range. -/
def igOverlaps (ig : IndexGroupInfo) (lo hi : Int) : Bool :=
  ig.startTime ≤ hi ∧ lo < ig.endTime

/-- Modelled from the spec: `ShardGroupInfo.Contains` is not under `src/`. -/
def sgContains (g : ShardGroupInfo) (t : Int) : Bool :=
  g.startTime ≤ t ∧ t < g.endTime

/-- Modelled from the spec:
`RetentionPolicyInfo.ShardGroupByTimestampAndEngineType` is not under
`src/`; per the spec it finds a live shard group covering `(ts, engine)`. -/
def RetentionPolicyInfo.shardGroupByTimestampAndEngineType
    (rp : RetentionPolicyInfo) (t : Int) (engineType : Nat) :
    Option ShardGroupInfo :=
  rp.shardGroups.find?
    (fun g => g.deletedAt = 0 ∧ sgContains g t ∧ g.engineType = engineType)

/-- `sort.Sort(ShardGroupInfos(...))`: order by start time (the source's
comparison; sorting an already-sorted slice leaves it unchanged). -/
def sortSGByStart (l : List ShardGroupInfo) : List ShardGroupInfo :=
  l.insertionSort (fun a b => a.startTime ≤ b.startTime)

/-- `sort.Sort(IndexGroupInfos(...))`: order by start time. -/
def sortIGByStart (l : List IndexGroupInfo) : List IndexGroupInfo :=
  l.insertionSort (fun a b => a.startTime ≤ b.startTime)

/-- `data.CreateIndexGroup(rpi, timestamp, engineType, ptNum)`: a fresh
duration-aligned group with one index per pt, appended and re-sorted. -/
def Data.createIndexGroup (d : Data) (rp : RetentionPolicyInfo) (ts : Int)
    (engineType ptNum : Nat) : Data × RetentionPolicyInfo × IndexGroupInfo :=
  let d := { d with maxIndexGroupID := d.maxIndexGroupID + 1 }
  let start := truncateTime ts rp.indexGroupDuration
  let endT := min (start + rp.indexGroupDuration) (maxNanoTime + 1)
  let indexes : List IndexInfo := (List.range ptNum).map
    (fun i => { id := d.maxIndexID + i + 1, owners := [i] })
  let d := { d with maxIndexID := d.maxIndexID + ptNum }
  let igi : IndexGroupInfo :=
    { id := d.maxIndexGroupID, startTime := start, endTime := endT,
      engineType := engineType, indexes := indexes }
  (d, { rp with indexGroups := sortIGByStart (rp.indexGroups ++ [igi]) }, igi)

/-- `data.createIndexGroupIfNeeded(rpi, timestamp, engineType, ptNum)`:
reuse the first live-engine group containing the timestamp when it has
enough indexes, else create a fresh one. -/
def Data.createIndexGroupIfNeeded (d : Data) (rp : RetentionPolicyInfo)
    (ts : Int) (engineType ptNum : Nat) :
    Data × RetentionPolicyInfo × IndexGroupInfo :=
  if rp.indexGroups = [] then d.createIndexGroup rp ts engineType ptNum
  else
    match rp.indexGroups.find?
        (fun ig => ig.engineType = engineType ∧ igContains ig ts) with
    | some ig =>
      if ptNum ≤ ig.indexes.length then (d, rp, ig)
      else d.createIndexGroup rp ts engineType ptNum
    | none => d.createIndexGroup rp ts engineType ptNum

/-- `data.newShardGroup(rpi, timestamp, engineType, version)`: the empty
group skeleton over the truncated time bucket, end clamped to
`MaxNanoTime + 1`. -/
def Data.newShardGroup (d : Data) (rp : RetentionPolicyInfo) (ts : Int)
    (engineType version : Nat) : Data × ShardGroupInfo :=
  let d := { d with maxShardGroupID := d.maxShardGroupID + 1 }
  let start := truncateTime ts rp.shardGroupDuration
  let endT := min (start + rp.shardGroupDuration) (maxNanoTime + 1)
  (d, { id := d.maxShardGroupID, startTime := start, endTime := endT,
        engineType := engineType, version := version, shards := [] })

/-- `data.createShards(database, sgi, igi, rpi, msti, tier)`: hash mode
creates one shard per effective pt (shard `i` owns pt `i` and binds
`igi.Indexes[i]`); range mode inherits the prior group's shard count and
`(min, max)` bounds. The source indexes `igi.Indexes[ptId]` unchecked
(callers guarantee enough indexes); out-of-range reads yield id 0 here. -/
def Data.createShards (d : Data) (db : String) (sgi : ShardGroupInfo)
    (igi : IndexGroupInfo) (rp : RetentionPolicyInfo) (msti : MeasurementInfo)
    (tier : Nat) : Data × ShardGroupInfo :=
  let shardN := d.getEffectivePtNum db
  let rangeSharded := msti.shardKeys ≠ [] ∧
    (msti.shardKeys.headD {}).typ = "range"
  let lastSgi : Option ShardGroupInfo :=
    if rangeSharded then rp.shardGroups.getLast? else none
  let count : Nat :=
    if rangeSharded then
      match rp.shardGroups.getLast? with
      | none => 1
      | some last => last.shards.length
    else shardN
  let shards : List ShardInfo := (List.range count).map (fun i =>
    let s : ShardInfo := { id := d.maxShardID + i + 1, tier := tier }
    let s := if i < shardN then
        { s with owners := [i], indexID := ((igi.indexes.get? i).map (·.id)).getD 0 }
      else s
    match lastSgi with
    | some last =>
      match last.shards.get? i with
      | some ls => { s with min := ls.min, max := ls.max }
      | none => s
    | none => s)
  ({ d with maxShardID := d.maxShardID + count }, { sgi with shards := shards })

/-- Write an updated retention policy back into its database
(the pointer mutation of the source). -/
def Data.setRP (d : Data) (db policy : String) (rp : RetentionPolicyInfo) :
    Data :=
  match d.databases.lookup db with
  | none => d
  | some dbi =>
    let dbi2 : DatabaseInfo :=
      { dbi with retentionPolicies := updateAssoc dbi.retentionPolicies policy rp }
    { d with databases := updateAssoc d.databases db dbi2 }

/-- `data.CreateShardGroup(database, policy, timestamp, tier, engineType,
version)`: idempotent when a live group already covers the timestamp and
engine; resolves the covering index group, builds the shards, appends the
group and re-sorts. The measurement picked by the source's map-range loop
is modelled as the first registered one. -/
def Data.createShardGroup (d : Data) (db policy : String) (ts : Int)
    (tier engineType version : Nat) : Data × Option Err :=
  match d.checkStoreReady with
  | some e => (d, some e)
  | none =>
    match d.retentionPolicy db policy with
    | .error e => (d, some e)
    | .ok rp =>
      if (rp.shardGroupByTimestampAndEngineType ts engineType).isSome then
        (d, none)
      else
        match rp.measurements.head? with
        | none => (d, some (.generic "there is no measurement in database"))
        | some (_, msti) =>
          let ptNum := d.getEffectivePtNum db
          let (d2, rp2, igi) := d.createIndexGroupIfNeeded rp ts engineType ptNum
          let (d3, sgi) := d2.newShardGroup rp2 ts engineType version
          let (d4, sgi) := d3.createShards db sgi igi rp2 msti tier
          let sgs := sortSGByStart (rp2.shardGroups ++ [sgi])
          let rp3 := { rp2 with shardGroups := sgs }
          (d4.setRP db policy rp3, none)

/-- `data.createIndexGroup(db, rp, startTime)` (the lower-case re-sharding
helper, named apart from `CreateIndexGroup` here): the end time is the last
shard group's end, extended to the end of the last overlapping index group;
the new group keeps the zero engine type, exactly as the source never
assigns `igi.EngineType`. -/
def Data.createIndexGroupAppend (d : Data) (db : String)
    (rp : RetentionPolicyInfo) (startTime : Int) :
    Data × RetentionPolicyInfo :=
  let endTime0 := ((rp.shardGroups.getLast?).map (·.endTime)).getD 0
  let endTime :=
    match rp.indexGroups.reverse.find? (fun ig => igOverlaps ig startTime endTime0) with
    | some ig => ig.endTime
    | none => endTime0
  let d := { d with maxIndexGroupID := d.maxIndexGroupID + 1 }
  let ptNum := d.getEffectivePtNum db
  let indexes : List IndexInfo := (List.range ptNum).map
    (fun i => { id := d.maxIndexID + i + 1, owners := [i] })
  let d := { d with maxIndexID := d.maxIndexID + ptNum }
  let igi : IndexGroupInfo :=
    { id := d.maxIndexGroupID, startTime := startTime, endTime := endTime,
      indexes := indexes }
  (d, { rp with indexGroups := sortIGByStart (rp.indexGroups ++ [igi]) })

/-- `data.CreateShardGroupWithBounds(db, rp, startTime, bounds,
engineType)`: `|bounds| + 1` shards; shard `i` gets `max = bounds[i]`
unless last, `min = bounds[i-1]` unless first, the first pt congruent to
`i` modulo the shard count as its sole owner, and the index of that pt in
the last index group. The source reads `ShardGroups[len-1]` and
`IndexGroups[len-1]` unchecked; the model falls back to zero values there. -/
def Data.createShardGroupWithBounds (d : Data) (db : String)
    (rp : RetentionPolicyInfo) (startTime : Int) (bounds : List String)
    (engineType : Nat) : Data × RetentionPolicyInfo :=
  let d := { d with maxShardGroupID := d.maxShardGroupID + 1 }
  let lastEnd := ((rp.shardGroups.getLast?).map (·.endTime)).getD 0
  let lastTier := ((rp.shardGroups.getLast?).bind (fun g => g.shards.head?)).elim 0 (·.tier)
  let igi : IndexGroupInfo := (rp.indexGroups.getLast?).getD
    { id := 0, startTime := 0, endTime := 0, indexes := [] }
  let shardN := bounds.length + 1
  let ptNum := d.getEffectivePtNum db
  let shards : List ShardInfo := (List.range shardN).map (fun i =>
    let s : ShardInfo := { id := d.maxShardID + i + 1, tier := lastTier }
    let s := match (List.range ptNum).find? (fun ptId => ptId % shardN = i) with
      | some ptId =>
        { s with owners := [ptId],
                 indexID := ((igi.indexes.get? ptId).map (·.id)).getD 0 }
      | none => s
    let s := if i ≠ shardN - 1 then { s with max := (bounds.get? i).getD "" } else s
    if 0 < i then { s with min := (bounds.get? (i - 1)).getD "" } else s)
  let d := { d with maxShardID := d.maxShardID + shardN }
  let sgi : ShardGroupInfo :=
    { id := d.maxShardGroupID, startTime := startTime, endTime := lastEnd,
      engineType := engineType, shards := shards }
  (d, { rp with shardGroups := sortSGByStart (rp.shardGroups ++ [sgi]) })

/-- `ReShardingInfo`. -/
structure ReShardingInfo where
  database : String
  rp : String
  shardGroupID : Nat
  splitTime : Int
  bounds : List String
  deriving DecidableEq, Repr

/-- `data.ReSharding(info)`: only the newest shard group of the RP may be
re-sharded; on success a covering index group and a bounds-partitioned
shard group are appended. -/
def Data.reSharding (d : Data) (info : ReShardingInfo) : Data × Option Err :=
  match d.retentionPolicy info.database info.rp with
  | .error e => (d, some e)
  | .ok rp =>
    match rp.shardGroups.getLast? with
    | none => (d, some .shardGroupNotFound)
    | some last =>
      if last.id ≠ info.shardGroupID then
        (d, some .shardGroupAlreadyReSharding)
      else
        let startTime := info.splitTime + 1
        let (d2, rp2) := d.createIndexGroupAppend info.database rp startTime
        let (d3, rp3) := d2.createShardGroupWithBounds info.database rp2
          startTime info.bounds last.engineType
        (d3.setRP info.database info.rp rp3, none)

/-!
Aliasing model for `Clone`. Go maps are reference values: `other := *data`
copies the map header only, so a field not re-assigned by a `CloneX` helper
stays shared between the original and the clone. `Data.Clone` re-assigns
`DataNodes`, `MetaNodes`, `Databases`, `Streams`, `Users`, `PtView`,
`MigrateEvents` and `QueryIDInit` from deep-copy helpers — and nothing
else, in particular not `ReplicaGroups`. The model below holds the two
map-valued fields of interest by reference into an explicit heap:
`PtView` (deep-copied by `CloneDBPtView`) and `ReplicaGroups` (not copied).
-/

/-- The heap of map cells: replica-group maps and pt-view maps. -/
structure MetaHeap where
  rgCells : List (List (String × List ReplicaGroup)) := []
  ptCells : List (List (String × List PtInfo)) := []
  deriving DecidableEq, Repr

/-- Read a replica-group map cell. -/
def MetaHeap.readRG (h : MetaHeap) (r : Nat) : List (String × List ReplicaGroup) :=
  (h.rgCells.get? r).getD []

/-- Read a pt-view map cell. -/
def MetaHeap.readPt (h : MetaHeap) (r : Nat) : List (String × List PtInfo) :=
  (h.ptCells.get? r).getD []

/-- Overwrite a replica-group map cell. -/
def MetaHeap.writeRG (h : MetaHeap) (r : Nat)
    (v : List (String × List ReplicaGroup)) : MetaHeap :=
  { h with rgCells := h.rgCells.set r v }

/-- Allocate a fresh pt-view map cell. -/
def MetaHeap.allocPt (h : MetaHeap) (v : List (String × List PtInfo)) :
    MetaHeap × Nat :=
  ({ h with ptCells := h.ptCells ++ [v] }, h.ptCells.length)

/-- The catalog value with its two map fields held by reference. -/
structure DataRef where
  replicaGroupsRef : Nat := 0
  ptViewRef : Nat := 0
  users : List UserInfo := []
  ptNumPerNode : Nat := 0
  deriving DecidableEq, Repr

/-- `data.Clone()` in the aliasing model: the struct copy plus the
re-assignments Clone performs. `PtView` goes through `CloneDBPtView`
(a fresh cell with copied contents), `Users` through `CloneUsers` (a value
field here); `ReplicaGroups` has no clone step, so the copied struct keeps
the same reference. -/
def DataRef.clone (d : DataRef) (h : MetaHeap) : DataRef × MetaHeap :=
  let (h, r) := h.allocPt (h.readPt d.ptViewRef)
  ({ d with ptViewRef := r }, h)

/-- `data.expandRepGroups(db, repNum)` acting through the shared
replica-group map reference. -/
def DataRef.expandRepGroupsRef (d : DataRef) (h : MetaHeap) (db : String)
    (repNum : Nat) : MetaHeap :=
  let m := h.readRG d.replicaGroupsRef
  let rgs := (m.lookup db).getD [] ++ List.replicate repNum ({} : ReplicaGroup)
  let m2 := if (m.lookup db).isSome then updateAssoc m db rgs else (db, rgs) :: m
  h.writeRG d.replicaGroupsRef m2

/-!
The shard/index cross-reference invariant of the claims: definitions
over one retention policy, and data-wide closures.
-/

/-- The index-group shape invariant the constructors establish: the index
at position `i` owns exactly pt `i`. -/
def igWellFormed (rp : RetentionPolicyInfo) : Prop :=
  ∀ ig ∈ rp.indexGroups, ∀ j : Fin ig.indexes.length,
    (ig.indexes.get j).owners = [(j : Nat)]

/-- A shard is linked to its covering index group: some index group of the
RP overlaps the shard group's time range and holds, at position
`owners[0]`, the index whose id the shard carries and whose owners equal
the shard's. Shards with no owner (never produced on the hash path) are
exempt. -/
def shardLinked (igs : List IndexGroupInfo) (sg : ShardGroupInfo)
    (s : ShardInfo) : Prop :=
  s.owners = [] ∨
    ∃ ig ∈ igs, ig.startTime < sg.endTime ∧ sg.startTime < ig.endTime ∧
      ∃ j : Fin ig.indexes.length, (j : Nat) = s.owners.headD 0 ∧
        (ig.indexes.get j).id = s.indexID ∧ (ig.indexes.get j).owners = s.owners

/-- `shardLinked` strengthened with the engine-type match the claim states:
the covering index group's engine type equals the shard group's. -/
def shardLinkedEngine (igs : List IndexGroupInfo) (sg : ShardGroupInfo)
    (s : ShardInfo) : Prop :=
  s.owners = [] ∨
    ∃ ig ∈ igs, ig.startTime < sg.endTime ∧ sg.startTime < ig.endTime ∧
      ig.engineType = sg.engineType ∧
      ∃ j : Fin ig.indexes.length, (j : Nat) = s.owners.headD 0 ∧
        (ig.indexes.get j).id = s.indexID ∧ (ig.indexes.get j).owners = s.owners

/-- The per-RP invariant without the engine-type clause. -/
def rpLinked (rp : RetentionPolicyInfo) : Prop :=
  igWellFormed rp ∧
    ∀ sg ∈ rp.shardGroups, ∀ s ∈ sg.shards, shardLinked rp.indexGroups sg s

/-- The per-RP invariant with the engine-type clause, as the claim states
it. -/
def rpLinkedEngine (rp : RetentionPolicyInfo) : Prop :=
  igWellFormed rp ∧
    ∀ sg ∈ rp.shardGroups, ∀ s ∈ sg.shards, shardLinkedEngine rp.indexGroups sg s

/-- The catalog-wide invariant (engine-free form): every RP of every
database is internally linked. -/
def dataLinked (d : Data) : Prop :=
  ∀ p ∈ d.databases, ∀ q ∈ p.2.retentionPolicies, rpLinked q.2

/-- The catalog-wide invariant as the claim states it, with the engine
clause. -/
def dataLinkedEngine (d : Data) : Prop :=
  ∀ p ∈ d.databases, ∀ q ∈ p.2.retentionPolicies, rpLinkedEngine q.2

instance : DecidablePred igWellFormed := fun rp => by
  unfold igWellFormed; infer_instance

instance (igs : List IndexGroupInfo) (sg : ShardGroupInfo) (s : ShardInfo) :
    Decidable (shardLinked igs sg s) := by
  unfold shardLinked; infer_instance

instance (igs : List IndexGroupInfo) (sg : ShardGroupInfo) (s : ShardInfo) :
    Decidable (shardLinkedEngine igs sg s) := by
  unfold shardLinkedEngine; infer_instance

instance : DecidablePred rpLinked := fun rp => by
  unfold rpLinked; infer_instance

instance : DecidablePred rpLinkedEngine := fun rp => by
  unfold rpLinkedEngine; infer_instance

instance : DecidablePred dataLinked := fun d => by
  unfold dataLinked; infer_instance

instance : DecidablePred dataLinkedEngine := fun d => by
  unfold dataLinkedEngine; infer_instance

/-!
Concrete catalog states used by witnesses and counterexamples.
-/

/-- An RP with one hash measurement, shard-group duration 10 ns and
index-group duration 100 ns. -/
def exRp : RetentionPolicyInfo :=
  { name := "rp", shardGroupDuration := 10, indexGroupDuration := 100,
    measurements := [("m", { name := "m" })] }

/-- A database holding `exRp`. -/
def exDb : DatabaseInfo := { name := "db", retentionPolicies := [("rp", exRp)] }

/-- A two-pt catalog around `exDb`. -/
def exData : Data := { clusterPtNum := 2, databases := [("db", exDb)] }

/-- `exData` after `CreateShardGroup("db", "rp", ts = 5, tier = 1,
engineType = 1, version = 0)`. -/
def exData1 : Data := (exData.createShardGroup "db" "rp" 5 1 1 0).1

/-- The re-sharding command splitting the newest group of `exData1` at
time 5 with one bound. -/
def exRSInfo : ReShardingInfo :=
  { database := "db", rp := "rp", shardGroupID := 1, splitTime := 5,
    bounds := ["m"] }

/-- `exData1` after applying `exRSInfo`. -/
def exData2 : Data := (exData1.reSharding exRSInfo).1

/-- A pt owned by node `i` (placement of one pt per node). -/
def mkPt (i : Nat) : PtInfo :=
  { ownerNodeID := i, status := .offline, ptId := i, ver := 1 }

/-- The S6 scenario state: `pt_num_per_node = 1`, four pts on four nodes,
database `dbR` with `replica_n = 2`. -/
def exDataR : Data :=
  { clusterPtNum := 4, ptNumPerNode := 1,
    databases := [("dbR", { name := "dbR", replicaN := 2 })],
    ptView := [("dbR", [mkPt 0, mkPt 1, mkPt 2, mkPt 3])] }

/-- A soft-deleted shard group with two unmarked shards of ids 1 and 2. -/
def exSG : ShardGroupInfo :=
  { id := 1, startTime := 0, endTime := 10, deletedAt := 5,
    shards := [{ id := 1 }, { id := 2 }] }

/-- An index group with both indexes already marked but `deletedAt = 0`. -/
def exIG : IndexGroupInfo :=
  { id := 1, startTime := 0, endTime := 100, deletedAt := 0,
    indexes := [{ id := 1, owners := [0], markDelete := true },
                { id := 2, owners := [1], markDelete := true }] }

/-- A catalog holding `exSG` and `exIG` in one RP. -/
def exDataP : Data :=
  { databases := [("db", { name := "db", retentionPolicies := [("rp",
      { name := "rp", shardGroups := [exSG], indexGroups := [exIG] })] })] }

/-- A catalog that already holds database `db0` with `replicaN = 1`. -/
def exDataC2 : Data :=
  { clusterPtNum := 1, databases := [("db0", { name := "db0", replicaN := 1 })] }

/-- A data node with distinct `connID` and `aliveConnID` and logical
time 5. -/
def exNode : DataNode :=
  { id := 1, host := "h1:8086", tcpHost := "h1:8400", status := 4,
    lTime := 5, connID := 3, aliveConnID := 2 }

/-- A take-over-enabled catalog with one node owning both pts of `db0`. -/
def exDataN : Data :=
  { takeOverEnabled := true, dataNodes := [exNode], clusterPtNum := 2,
    ptView := [("db0",
      [{ ownerNodeID := 1, status := .online, ptId := 0, ver := 1 },
       { ownerNodeID := 1, status := .online, ptId := 1, ver := 1 }])] }

/-- A catalog whose measurement `cpu` has a string field `host`
(type tag 3). -/
def exDataS : Data :=
  let cpu : MeasurementInfo := { name := "cpu", schema := [("host", 3)] }
  let autogen : RetentionPolicyInfo :=
    { name := "autogen", measurements := [("cpu", cpu)] }
  let db0 : DatabaseInfo :=
    { name := "db0", retentionPolicies := [("autogen", autogen)] }
  { clusterPtNum := 1, databases := [("db0", db0)] }

/-- A catalog with one admin and one regular user. -/
def exDataU : Data :=
  { users := [{ name := "root", hash := "h1", admin := true },
              { name := "bob", hash := "h2" }],
    adminUserExists := true }

/-!
Helper lemmas on association lists, sorting, ranges and truncation.
-/

theorem lookup_mem {α : Type} {l : List (String × α)} {k : String} {v : α}
    (h : l.lookup k = some v) : (k, v) ∈ l := by
  induction l with
  | nil => simp [List.lookup] at h
  | cons p rest ih =>
    obtain ⟨a, b⟩ := p
    rw [List.lookup] at h
    cases hbeq : (k == a) with
    | true =>
      rw [hbeq] at h
      simp only [Option.some.injEq] at h
      simp only [beq_iff_eq] at hbeq
      subst hbeq; subst h; exact List.mem_cons_self _ _
    | false =>
      rw [hbeq] at h
      exact List.mem_cons_of_mem _ (ih h)

theorem mem_updateAssoc {α : Type} {l : List (String × α)} {k : String}
    {v : α} {p : String × α} (h : p ∈ updateAssoc l k v) :
    p ∈ l ∨ (p.1 = k ∧ p.2 = v) := by
  induction l with
  | nil => simp [updateAssoc] at h
  | cons q rest ih =>
    obtain ⟨a, b⟩ := q
    rw [updateAssoc] at h
    by_cases hk : a = k
    · rw [if_pos hk] at h
      rcases List.mem_cons.mp h with h1 | h1
      · right; rw [h1]; exact ⟨hk, rfl⟩
      · left; exact List.mem_cons_of_mem _ h1
    · rw [if_neg hk] at h
      rcases List.mem_cons.mp h with h1 | h1
      · left; rw [h1]; exact List.mem_cons_self _ _
      · rcases ih h1 with h2 | h2
        · left; exact List.mem_cons_of_mem _ h2
        · right; exact h2

theorem lookup_updateAssoc_self {α : Type} {l : List (String × α)}
    {k : String} {w : α} (v : α) (h : l.lookup k = some w) :
    (updateAssoc l k v).lookup k = some v := by
  induction l with
  | nil => simp [List.lookup] at h
  | cons q rest ih =>
    obtain ⟨a, b⟩ := q
    rw [List.lookup] at h
    rw [updateAssoc]
    by_cases hk : a = k
    · rw [if_pos hk, List.lookup, hk]
      simp
    · rw [if_neg hk, List.lookup]
      cases hbeq : (k == a) with
      | true => simp only [beq_iff_eq] at hbeq; exact absurd hbeq.symm hk
      | false => rw [hbeq] at h; exact ih h

theorem lookup_updateAssoc_ne {α : Type} (l : List (String × α))
    (k k2 : String) (v : α) (h : k2 ≠ k) :
    (updateAssoc l k v).lookup k2 = l.lookup k2 := by
  induction l with
  | nil => rfl
  | cons q rest ih =>
    obtain ⟨a, b⟩ := q
    rw [updateAssoc]
    by_cases hk : a = k
    · rw [if_pos hk, List.lookup, List.lookup]
      cases hbeq : (k2 == a) with
      | true => simp only [beq_iff_eq] at hbeq; exact absurd (hbeq.trans hk) h
      | false => rfl
    · rw [if_neg hk, List.lookup, List.lookup]
      cases hbeq : (k2 == a) with
      | true => rfl
      | false => exact ih

theorem lookup_map_snd {α β : Type} (l : List (String × α)) (f : α → β)
    (k : String) :
    (l.map (fun p => (p.1, f p.2))).lookup k = (l.lookup k).map f := by
  induction l with
  | nil => rfl
  | cons q rest ih =>
    obtain ⟨a, b⟩ := q
    simp only [List.map_cons, List.lookup]
    cases hbeq : (k == a) with
    | true => rfl
    | false => exact ih

theorem mem_insertionSort {α : Type} (r : α → α → Prop) [DecidableRel r]
    (l : List α) (a : α) : a ∈ l.insertionSort r ↔ a ∈ l :=
  (List.perm_insertionSort r l).mem_iff

theorem insertionSort_append_last {α : Type} (r : α → α → Prop)
    [DecidableRel r] (l : List α) (y : α) (hs : l.Sorted r)
    (hy : ∀ x ∈ l, r x y) : (l ++ [y]).insertionSort r = l ++ [y] := by
  apply List.Sorted.insertionSort_eq
  rw [List.Sorted, List.pairwise_append]
  refine ⟨hs, List.pairwise_singleton r y, ?_⟩
  intro a ha b hb
  rw [List.mem_singleton] at hb
  exact hb ▸ hy a ha

theorem get?_range_map {α : Type} (n i : Nat) (f : Nat → α) (h : i < n) :
    ((List.range n).map f).get? i = some (f i) := by
  simp [List.get?_eq_getElem?, List.getElem?_map, List.getElem?_range h]

theorem get?_range_map_ge {α : Type} (n i : Nat) (f : Nat → α) (h : n ≤ i) :
    ((List.range n).map f).get? i = none := by
  simp only [List.get?_eq_getElem?]
  apply List.getElem?_eq_none
  simpa using h

theorem length_range_map {α : Type} (n : Nat) (f : Nat → α) :
    ((List.range n).map f).length = n := by simp

theorem truncateTime_le (t d : Int) (hd : 0 < d) : truncateTime t d ≤ t := by
  have := Int.emod_nonneg t (by omega : d ≠ 0)
  unfold truncateTime; omega

theorem lt_truncateTime_add (t d : Int) (hd : 0 < d) :
    t < truncateTime t d + d := by
  have := Int.emod_lt_of_pos t hd
  unfold truncateTime; omega

/-!
Claim theorems.
-/

/-- C10: for every state and every name denoting a user whose admin flag is
set, `DropUser` fails with `UserDropSelf` and leaves the catalog (hence the
user list) unchanged, and `SetAdminPrivilege` on any existing user fails
with `GrantOrRevokeAdmin` and leaves the catalog unchanged; no command can
therefore remove or demote an admin — the check consults only the target
account, not a caller identity. -/
theorem dropUser_setAdminPrivilege_refuse_admin (d : Data) (name : String)
    (u : UserInfo) (hu : d.getUser name = some u) (hadmin : u.admin = true) :
    d.dropUser name = (d, some .userDropSelf) ∧
      ∀ b, d.setAdminPrivilege name b = (d, some .grantOrRevokeAdmin) := by
  constructor
  · unfold Data.dropUser
    rw [hu]
    simp [hadmin]
  · intro b
    unfold Data.setAdminPrivilege
    rw [hu]

/-- Witness for C10 at the concrete state `exDataU` and its admin `root`. -/
theorem dropUser_setAdminPrivilege_refuse_admin_witness :
    exDataU.dropUser "root" = (exDataU, some .userDropSelf) ∧
      exDataU.setAdminPrivilege "root" true = (exDataU, some .grantOrRevokeAdmin) := by
  have h := dropUser_setAdminPrivilege_refuse_admin exDataU "root"
    { name := "root", hash := "h1", admin := true } (by decide) (by decide)
  exact ⟨h.1, h.2 true⟩

/-- C2 counterexample: `db0` exists with `replicaN = 1` and is not deleted;
re-creating it with `replicaN = 2` (different arguments) returns success
with the catalog unchanged — not `DatabaseExists` as the claim states. -/
theorem createDatabase_differing_recreate_succeeds :
    exDataC2.createDatabase "db0" none none false 2 = (exDataC2, none) ∧
      (exDataC2.database "db0").map (fun dbi => dbi.replicaN) = some 1 ∧
      (2 : Nat) ≠ 1 := by
  refine ⟨by decide, by decide, by decide⟩

/-- C2 amended: re-creating an existing non-deleted database returns
success regardless of whether the supplied arguments match the stored
definition (the `DatabaseExists` pre-check result is converted to success
before any argument is examined); an empty name fails with
`DatabaseNameRequired`; `cluster_pt_num = 0` fails with
`StorageNodeNotReady`; a mark-deleted database fails (with an untagged
error, not `DatabaseExists`). -/
theorem createDatabase_error_spec (d : Data) (name : String)
    (rpi : Option RetentionPolicyInfo) (sk : Option ShardKeyInfo)
    (eta : Bool) (rn : Nat) :
    (∀ dbi, name ≠ "" → d.clusterPtNum ≠ 0 → d.database name = some dbi →
        dbi.markDeleted = false →
        d.createDatabase name rpi sk eta rn = (d, none)) ∧
    (name = "" →
        d.createDatabase name rpi sk eta rn = (d, some .databaseNameRequired)) ∧
    (name ≠ "" → d.clusterPtNum = 0 →
        d.createDatabase name rpi sk eta rn = (d, some .storageNodeNotReady)) ∧
    (∀ dbi, name ≠ "" → d.clusterPtNum ≠ 0 → d.database name = some dbi →
        dbi.markDeleted = true →
        ∃ msg, d.createDatabase name rpi sk eta rn = (d, some (.generic msg))) := by
  refine ⟨?_, ?_, ?_, ?_⟩
  · intro dbi hname hpt hdb hmark
    have hc : d.checkCanCreateDatabase name = some .databaseExists := by
      unfold Data.checkCanCreateDatabase Data.checkStoreReady
      rw [if_neg hname, if_neg hpt, hdb]
      simp [hmark]
    unfold Data.createDatabase
    rw [hc]
  · intro hname
    have hc : d.checkCanCreateDatabase name = some .databaseNameRequired := by
      unfold Data.checkCanCreateDatabase
      rw [if_pos hname]
    unfold Data.createDatabase
    rw [hc]
  · intro hname hpt
    have hc : d.checkCanCreateDatabase name = some .storageNodeNotReady := by
      unfold Data.checkCanCreateDatabase Data.checkStoreReady
      rw [if_neg hname, if_pos hpt]
    unfold Data.createDatabase
    rw [hc]
  · intro dbi hname hpt hdb hmark
    refine ⟨"cant create same DB Name when DB is being deleted", ?_⟩
    have hc : d.checkCanCreateDatabase name =
        some (.generic "cant create same DB Name when DB is being deleted") := by
      unfold Data.checkCanCreateDatabase Data.checkStoreReady
      rw [if_neg hname, if_neg hpt, hdb]
      simp [hmark]
    unfold Data.createDatabase
    rw [hc]

/-- Witness for C2 at `exDataC2`: the re-create with different arguments
succeeds, and an empty name is refused. -/
theorem createDatabase_error_spec_witness :
    exDataC2.createDatabase "db0" none none false 2 = (exDataC2, none) ∧
      exDataC2.createDatabase "" none none false 1 =
        (exDataC2, some .databaseNameRequired) := by
  refine ⟨(createDatabase_error_spec exDataC2 "db0" none none false 2).1
      { name := "db0", replicaN := 1 } (by decide) (by decide) (by decide)
      (by decide),
    (createDatabase_error_spec exDataC2 "" none none false 1).2.1 (by decide)⟩

/-- C5 counterexample: in the S6 scenario (`pt_num_per_node = 1`, four
nodes, `replica_n = 2`) the code builds group 0 with master pt 0 and peer
pt 1, and group 1 with master pt 2 and peer pt 3 — not peer pt 2 for
group 0 and master pt 1 for group 1 as the claim states. -/
theorem createReplication_masters_counterexample :
    ((exDataR.createReplicationImp "dbR" 2).1.dbRepGroups "dbR").map
        (fun g => (g.masterPtID, g.peers.map (fun p => p.id))) =
      [(0, [1]), (2, [3])] ∧
      ([(0, [1]), (2, [3])] : List (Nat × List Nat)) ≠ [(0, [2]), (1, [3])] := by
  refine ⟨by decide, by decide⟩

/-- C5 amended: the S6 scenario yields a pt-view of size 4 and exactly 2
replica groups; group 0 has master pt 0 and peer pt 1, group 1 has master
pt 2 and peer pt 3; each group's peers sit at offsets
`pt_num_per_node·(i+1)` from its own master pt; master and peer live on
distinct data nodes; and each covered pt's `replica_group_id` equals its
group's id. -/
theorem createReplication_scenario :
    (exDataR.createReplicationImp "dbR" 2).2 = none ∧
    ((exDataR.createReplicationImp "dbR" 2).1.dbPtView "dbR").length = 4 ∧
    ((exDataR.createReplicationImp "dbR" 2).1.dbRepGroups "dbR").length = 2 ∧
    ((exDataR.createReplicationImp "dbR" 2).1.dbRepGroups "dbR").map
        (fun g => (g.masterPtID, g.peers.map (fun p => p.id))) =
      [(0, [1]), (2, [3])] ∧
    (∀ g ∈ (exDataR.createReplicationImp "dbR" 2).1.dbRepGroups "dbR",
      g.peers.map (fun p => p.id) =
        (List.range 1).map (fun i => g.masterPtID + exDataR.ptNumPerNode * (i + 1))) ∧
    (∀ g ∈ (exDataR.createReplicationImp "dbR" 2).1.dbRepGroups "dbR",
      ∀ p ∈ g.peers,
        ((((exDataR.createReplicationImp "dbR" 2).1.dbPtView "dbR").get?
            g.masterPtID).map (fun pt => pt.ownerNodeID)) ≠
          ((((exDataR.createReplicationImp "dbR" 2).1.dbPtView "dbR").get?
            p.id).map (fun pt => pt.ownerNodeID))) ∧
    (((exDataR.createReplicationImp "dbR" 2).1.dbPtView "dbR").map
        (fun pt => pt.rgID) = [0, 0, 1, 1]) := by
  refine ⟨by decide, by decide, by decide, by decide, by decide, by decide,
    by decide⟩

/-- A pt-status write of the original catalog going through its own
pt-view reference (the per-pt mutation of `updatePtViewStatus`); the clone
is unaffected because `CloneDBPtView` gave it a fresh cell. -/
def DataRef.markPtOfflineRef (d : DataRef) (h : MetaHeap) : MetaHeap :=
  let m := h.readPt d.ptViewRef
  let m2 := m.map (fun p => (p.1, p.2.map
    (fun pt => { pt with status := .offline, ver := pt.ver + 1 })))
  { h with ptCells := h.ptCells.set d.ptViewRef m2 }

/-- The heap for the Clone-aliasing scenario: one shared replica-group cell
(empty map) and one pt-view cell. -/
def exHeap : MetaHeap := { rgCells := [[]], ptCells := [[("db", [mkPt 0])]] }

/-- The catalog value of the Clone-aliasing scenario. -/
def exDRef : DataRef := { replicaGroupsRef := 0, ptViewRef := 0, ptNumPerNode := 1 }

/-- C9: `Clone` deep-copies `DataNodes`, `MetaNodes`, `Databases`,
`Streams`, `Users`, `PtView`, `MigrateEvents` and `QueryIDInit` but never
`ReplicaGroups`, so the clone shares the original's replica-group map: at
clone time the clone sees the empty map, yet after the original applies
`expandRepGroups` the clone's view has changed — while the deep-copied
pt-view of the clone is unaffected by the original's pt mutations. -/
theorem clone_shares_replicaGroups :
    ((exDRef.clone exHeap).2.readRG (exDRef.clone exHeap).1.replicaGroupsRef
        = []) ∧
    ((exDRef.expandRepGroupsRef (exDRef.clone exHeap).2 "db" 1).readRG
        (exDRef.clone exHeap).1.replicaGroupsRef = [("db", [{}])]) ∧
    (([] : List (String × List ReplicaGroup)) ≠ [("db", [{}])]) ∧
    ((exDRef.markPtOfflineRef
          (exDRef.expandRepGroupsRef (exDRef.clone exHeap).2 "db" 1)).readPt
        (exDRef.clone exHeap).1.ptViewRef =
      (exDRef.clone exHeap).2.readPt (exDRef.clone exHeap).1.ptViewRef) := by
  refine ⟨by decide, by decide, by decide, by decide⟩

/-- C4: `UpdateNodeStatus` is a success no-op when take-over is disabled;
fails with `OlderEvent` when the supplied logical time is below the stored
one; fails with `DataNodeSplitBrain` under the shared-storage policy when
an alive status arrives while `connID = aliveConnID`; and on acceptance
stores the new status and logical time, sets `aliveConnID = connID` on
alive, and for every database marks every pt owned by the node offline
with a version bump, leaving all other pts unchanged. -/
theorem updateNodeStatus_spec (haPolicy : HaPolicy) (d : Data)
    (id status lTime : Nat) (gp : String) :
    (d.takeOverEnabled = false →
        d.updateNodeStatus haPolicy id status lTime gp = (d, none)) ∧
    (∀ dn, d.takeOverEnabled = true → d.dataNode id = some dn →
        lTime < dn.lTime →
        d.updateNodeStatus haPolicy id status lTime gp = (d, some .olderEvent)) ∧
    (∀ dn, d.takeOverEnabled = true → d.dataNode id = some dn →
        dn.lTime ≤ lTime → haPolicy = .sharedStorage → status = statusAlive →
        dn.connID = dn.aliveConnID →
        d.updateNodeStatus haPolicy id status lTime gp =
          (d, some .dataNodeSplitBrain)) ∧
    (∀ dn, d.takeOverEnabled = true → d.dataNode id = some dn →
        dn.lTime ≤ lTime →
        ¬(haPolicy = .sharedStorage ∧ status = statusAlive ∧
            dn.connID = dn.aliveConnID) →
        (d.updateNodeStatus haPolicy id status lTime gp).2 = none ∧
        (d.updateNodeStatus haPolicy id status lTime gp).1.dataNodes =
          d.dataNodes.map (fun n => if n.id = id then
            updateNodeFields dn status lTime gp else n) ∧
        (updateNodeFields dn status lTime gp).status = status ∧
        (updateNodeFields dn status lTime gp).lTime = lTime ∧
        (status = statusAlive →
          (updateNodeFields dn status lTime gp).aliveConnID = dn.connID) ∧
        (d.updateNodeStatus haPolicy id status lTime gp).1.ptView =
          d.ptView.map (fun p => (p.1, p.2.map (fun pt =>
            if pt.ownerNodeID = id then
              { pt with status := .offline, ver := pt.ver + 1 }
            else pt)))) := by
  refine ⟨?_, ?_, ?_, ?_⟩
  · intro h
    unfold Data.updateNodeStatus
    simp [h]
  · intro dn h hdn hlt
    unfold Data.updateNodeStatus
    simp [h, hdn, hlt]
  · intro dn h hdn hle hsp hst hconn
    have hnlt : ¬ lTime < dn.lTime := by omega
    unfold Data.updateNodeStatus
    simp [h, hdn, hnlt, hsp, hst, hconn]
  · intro dn h hdn hle hnot
    have hnlt : ¬ lTime < dn.lTime := by omega
    have hfields : ∀ st lt g, ((updateNodeFields dn st lt g).status = st ∧
        (updateNodeFields dn st lt g).lTime = lt ∧
        (st = statusAlive → (updateNodeFields dn st lt g).aliveConnID = dn.connID)) := by
      intro st lt g
      unfold updateNodeFields
      refine ⟨?_, ?_, ?_⟩
      · by_cases hal : st = statusAlive <;> by_cases hg : dn.gossipAddr = "" <;>
          simp [hal, hg]
      · by_cases hal : st = statusAlive <;> by_cases hg : dn.gossipAddr = "" <;>
          simp [hal, hg]
      · intro hal
        by_cases hg : dn.gossipAddr = "" <;> simp [hal, hg]
    unfold Data.updateNodeStatus
    simp only [h, Bool.true_eq_false, not_false_eq_true, Bool.not_eq_true,
      if_false, hdn, hnlt, hnot, if_neg, ite_false, Bool.false_eq_true]
    refine ⟨rfl, ?_, (hfields status lTime gp).1, (hfields status lTime gp).2.1,
      (hfields status lTime gp).2.2, ?_⟩
    · unfold Data.updatePtViewStatus Data.setDataNode
      rfl
    · unfold Data.updatePtViewStatus Data.setDataNode
      rfl

/-- Witness for C4: node 1 of `exDataN` fails at logical time 10; both pts
of `db0` go offline with a version bump. -/
theorem updateNodeStatus_spec_witness :
    (exDataN.updateNodeStatus .writeAvailableFirst 1 4 10 "8401").2 = none ∧
    (exDataN.updateNodeStatus .writeAvailableFirst 1 4 10 "8401").1.ptView =
      exDataN.ptView.map (fun p => (p.1, p.2.map (fun pt =>
        if pt.ownerNodeID = 1 then
          { pt with status := .offline, ver := pt.ver + 1 }
        else pt))) := by
  have h := (updateNodeStatus_spec .writeAvailableFirst exDataN 1 4 10
      "8401").2.2.2 exNode (by decide) (by decide) (by decide) (by decide)
  exact ⟨h.1, h.2.2.2.2.2⟩

theorem updateSchemaLoop_cons_none (acc : List (String × Int))
    (f : FieldSchema) (rest : List FieldSchema)
    (h : acc.lookup f.fieldName = none) :
    updateSchemaLoop acc (f :: rest) =
      updateSchemaLoop ((f.fieldName, f.fieldType) :: acc) rest := by
  rw [updateSchemaLoop, h]

theorem updateSchemaLoop_cons_some_eq (acc : List (String × Int))
    (f : FieldSchema) (rest : List FieldSchema) (t : Int)
    (h : acc.lookup f.fieldName = some t) (ht : t = f.fieldType) :
    updateSchemaLoop acc (f :: rest) = updateSchemaLoop acc rest := by
  rw [updateSchemaLoop, h]
  exact if_pos ht

theorem updateSchemaLoop_cons_some_ne (acc : List (String × Int))
    (f : FieldSchema) (rest : List FieldSchema) (t : Int)
    (h : acc.lookup f.fieldName = some t) (ht : t ≠ f.fieldType) :
    updateSchemaLoop acc (f :: rest) = .error .fieldTypeConflict := by
  rw [updateSchemaLoop, h]
  exact if_neg ht

theorem updateSchemaLoop_extends (fields : List FieldSchema) :
    ∀ acc out, updateSchemaLoop acc fields = .ok out →
      ∀ k v, acc.lookup k = some v → out.lookup k = some v := by
  induction fields with
  | nil =>
    intro acc out h k v hk
    simp only [updateSchemaLoop] at h
    cases h
    exact hk
  | cons f rest ih =>
    intro acc out h k v hk
    cases hl : acc.lookup f.fieldName with
    | none =>
      rw [updateSchemaLoop_cons_none acc f rest hl] at h
      apply ih _ _ h
      rw [List.lookup]
      cases hbeq : (k == f.fieldName) with
      | true =>
        simp only [beq_iff_eq] at hbeq
        rw [hbeq] at hk
        rw [hk] at hl
        cases hl
      | false => exact hk
    | some t =>
      by_cases ht : t = f.fieldType
      · rw [updateSchemaLoop_cons_some_eq acc f rest t hl ht] at h
        exact ih _ _ h k v hk
      · rw [updateSchemaLoop_cons_some_ne acc f rest t hl ht] at h
        cases h

theorem updateSchemaLoop_error (fields : List FieldSchema) :
    ∀ acc e, updateSchemaLoop acc fields = .error e →
      e = .fieldTypeConflict := by
  induction fields with
  | nil =>
    intro acc e h
    simp only [updateSchemaLoop] at h
    cases h
  | cons f rest ih =>
    intro acc e h
    cases hl : acc.lookup f.fieldName with
    | none =>
      rw [updateSchemaLoop_cons_none acc f rest hl] at h
      exact ih _ _ h
    | some t =>
      by_cases ht : t = f.fieldType
      · rw [updateSchemaLoop_cons_some_eq acc f rest t hl ht] at h
        exact ih _ _ h
      · rw [updateSchemaLoop_cons_some_ne acc f rest t hl ht] at h
        cases h
        rfl

theorem updateSchemaLoop_fields (fields : List FieldSchema) :
    ∀ acc out, updateSchemaLoop acc fields = .ok out →
      ∀ f ∈ fields,
        (acc.lookup f.fieldName = none →
            out.lookup f.fieldName = some f.fieldType) ∧
        (∀ t, acc.lookup f.fieldName = some t → t = f.fieldType) := by
  induction fields with
  | nil =>
    intro acc out _ f hf
    cases hf
  | cons f0 rest ih =>
    intro acc out h f hf
    cases hl : acc.lookup f0.fieldName with
    | none =>
      rw [updateSchemaLoop_cons_none acc f0 rest hl] at h
      rcases List.mem_cons.mp hf with hf1 | hf1
      · subst hf1
        constructor
        · intro _
          apply updateSchemaLoop_extends rest _ _ h
          rw [List.lookup]
          simp
        · intro t ht
          rw [ht] at hl
          cases hl
      · have hmem := ih _ _ h f hf1
        constructor
        · intro hfn
          by_cases hname : f.fieldName = f0.fieldName
          · have hacc : ((f0.fieldName, f0.fieldType) :: acc).lookup f.fieldName =
                some f0.fieldType := by
              rw [List.lookup, hname]
              simp
            have hft := hmem.2 f0.fieldType hacc
            rw [← hft]
            apply updateSchemaLoop_extends rest _ _ h
            exact hacc
          · apply hmem.1
            rw [List.lookup]
            cases hbeq : (f.fieldName == f0.fieldName) with
            | true => simp only [beq_iff_eq] at hbeq; exact absurd hbeq hname
            | false => exact hfn
        · intro t ht
          apply hmem.2 t
          rw [List.lookup]
          cases hbeq : (f.fieldName == f0.fieldName) with
          | true =>
            simp only [beq_iff_eq] at hbeq
            rw [hbeq, hl] at ht
            cases ht
          | false => exact ht
    | some t0 =>
      by_cases ht0 : t0 = f0.fieldType
      · rw [updateSchemaLoop_cons_some_eq acc f0 rest t0 hl ht0] at h
        rcases List.mem_cons.mp hf with hf1 | hf1
        · subst hf1
          refine ⟨?_, ?_⟩
          · intro hfn
            rw [hfn] at hl
            cases hl
          · intro t ht
            rw [ht] at hl
            cases hl
            exact ht0
        · exact ih _ _ h f hf1
      · rw [updateSchemaLoop_cons_some_ne acc f0 rest t0 hl ht0] at h
        cases h

theorem updateSchema_eq (d : Data) (db rpName mst : String)
    (fields : List FieldSchema) (msti : MeasurementInfo)
    (hm : d.measurement db rpName mst = .ok msti) :
    d.updateSchema db rpName mst fields =
      match updateSchemaLoop msti.schema fields with
      | .error e => (d, some e)
      | .ok schema =>
        (d.setMeasurement db rpName mst { msti with schema }, none) := by
  unfold Data.updateSchema
  rw [hm]

/-- C7: `UpdateSchema` stages the new schema on a copy and swaps it in only
after all fields validate: any failure leaves the catalog (hence the
measurement schema) unchanged; a supplied field already present with a
different type forces `FieldTypeConflict`; on success every absent field is
added with its supplied type, every present supplied field already had the
supplied type, and all previously present fields survive unchanged. -/
theorem updateSchema_spec (d : Data) (db rpName mst : String)
    (fields : List FieldSchema) (msti : MeasurementInfo)
    (hm : d.measurement db rpName mst = .ok msti) :
    ((d.updateSchema db rpName mst fields).2.isSome →
        (d.updateSchema db rpName mst fields).1 = d) ∧
    ((∃ f ∈ fields, ∃ t, msti.schema.lookup f.fieldName = some t ∧
          t ≠ f.fieldType) →
        d.updateSchema db rpName mst fields = (d, some .fieldTypeConflict)) ∧
    (∀ d2, d.updateSchema db rpName mst fields = (d2, none) →
        ∃ schema2,
          d2 = d.setMeasurement db rpName mst { msti with schema := schema2 } ∧
          (∀ f ∈ fields, msti.schema.lookup f.fieldName = none →
              schema2.lookup f.fieldName = some f.fieldType) ∧
          (∀ f ∈ fields, ∀ t, msti.schema.lookup f.fieldName = some t →
              t = f.fieldType) ∧
          (∀ k v, msti.schema.lookup k = some v →
              schema2.lookup k = some v)) := by
  rw [updateSchema_eq d db rpName mst fields msti hm]
  refine ⟨?_, ?_, ?_⟩
  · intro hsome
    cases hloop : updateSchemaLoop msti.schema fields with
    | error e => rfl
    | ok out =>
      rw [hloop] at hsome
      simp at hsome
  · intro hconf
    cases hloop : updateSchemaLoop msti.schema fields with
    | error e =>
      have he := updateSchemaLoop_error fields _ _ hloop
      subst he
      rfl
    | ok out =>
      exfalso
      obtain ⟨f, hf, t, ht, hne⟩ := hconf
      exact hne ((updateSchemaLoop_fields fields _ _ hloop f hf).2 t ht)
  · intro d2 h2
    cases hloop : updateSchemaLoop msti.schema fields with
    | error e =>
      rw [hloop] at h2
      simp at h2
    | ok out =>
      rw [hloop] at h2
      simp only [Prod.mk.injEq] at h2
      refine ⟨out, h2.1.symm, ?_, ?_, ?_⟩
      · intro f hf hfn
        exact (updateSchemaLoop_fields fields _ _ hloop f hf).1 hfn
      · intro f hf t ht
        exact (updateSchemaLoop_fields fields _ _ hloop f hf).2 t ht
      · intro k v hk
        exact updateSchemaLoop_extends fields _ _ hloop k v hk

/-- Witness for C7 (the S5 scenario): adding `host` as an integer to a
measurement whose `host` field is a string fails with `FieldTypeConflict`
and leaves the catalog unchanged. -/
theorem updateSchema_spec_witness :
    exDataS.updateSchema "db0" "autogen" "cpu"
        [{ fieldName := "host", fieldType := 1 }] =
      (exDataS, some .fieldTypeConflict) := by
  exact (updateSchema_spec exDataS "db0" "autogen" "cpu"
      [{ fieldName := "host", fieldType := 1 }]
      { name := "cpu", schema := [("host", 3)] } (by rfl)).2.1
    ⟨{ fieldName := "host", fieldType := 1 }, by decide, 3, by decide, by decide⟩

/-- The user-registry commands: the operations of the source that read or
write `Data.Users` or `Data.AdminUserExists`. -/
inductive UserCmd where
  | createUserCmd (name hash : String) (admin rwuser : Bool)
  | dropUserCmd (name : String)
  | updateUserCmd (name hash : String)
  | setPrivilegeCmd (name database : String) (p : Nat)
  | setAdminPrivilegeCmd (name : String) (admin : Bool)
  deriving DecidableEq, Repr

/-- Dispatch of a user-registry command. -/
def applyUserCmd (d : Data) : UserCmd → Data × Option Err
  | .createUserCmd n h a r => d.createUser n h a r
  | .dropUserCmd n => d.dropUser n
  | .updateUserCmd n h => d.updateUser n h
  | .setPrivilegeCmd n db p => d.setPrivilege n db p
  | .setAdminPrivilegeCmd n a => d.setAdminPrivilege n a

/-- The admin invariant: at most one admin user, and the
`admin_user_exists` cache agrees with the exhaustive scan. -/
def adminInvariant (d : Data) : Prop :=
  (d.users.filter (fun u => u.admin)).length ≤ 1 ∧
    d.hasAdminUser = d.adminUserExists

theorem removeFirstUser_none (name : String) :
    ∀ users : List UserInfo,
      users.find? (fun x => x.name = name) = none →
      removeFirstUser name users = none := by
  intro users
  induction users with
  | nil => intro _; rfl
  | cons v rest ih =>
    intro h
    rw [List.find?] at h
    rw [removeFirstUser]
    cases hv : (decide (v.name = name)) with
    | true => rw [hv] at h; cases h
    | false =>
      rw [hv] at h
      have hne : ¬ v.name = name := of_decide_eq_false hv
      rw [if_neg hne, ih h]
      rfl

theorem removeFirstUser_facts (name : String) :
    ∀ (users l : List UserInfo) (u : UserInfo),
      users.find? (fun x => x.name = name) = some u → u.admin = false →
      removeFirstUser name users = some l →
      ((l.filter (fun x => x.admin)).length =
          (users.filter (fun x => x.admin)).length ∧
        l.any (fun x => x.admin) = users.any (fun x => x.admin)) := by
  intro users
  induction users with
  | nil => intro l u h; cases h
  | cons v rest ih =>
    intro l u hfind hadm hrem
    rw [List.find?] at hfind
    rw [removeFirstUser] at hrem
    cases hv : (decide (v.name = name)) with
    | true =>
      rw [hv] at hfind
      have hveq : v = u := by cases hfind; rfl
      have hvn : v.name = name := of_decide_eq_true hv
      rw [if_pos hvn] at hrem
      cases hrem
      subst hveq
      constructor
      · rw [List.filter_cons]
        simp [hadm]
      · rw [List.any_cons]
        simp [hadm]
    | false =>
      rw [hv] at hfind
      have hvn : ¬ v.name = name := of_decide_eq_false hv
      rw [if_neg hvn] at hrem
      cases hrec : removeFirstUser name rest with
      | none => rw [hrec] at hrem; cases hrem
      | some l2 =>
        rw [hrec] at hrem
        have hrem2 : v :: l2 = l := by simpa using hrem
        subst hrem2
        have := ih l2 u hfind hadm hrec
        rw [List.filter_cons, List.filter_cons, List.any_cons, List.any_cons,
          this.2]
        cases hva : v.admin <;> simp [hva, this.1]

theorem updateFirstUserHash_facts (name hash : String) :
    ∀ (users l : List UserInfo),
      updateFirstUserHash name hash users = .ok l →
      ((l.filter (fun x => x.admin)).length =
          (users.filter (fun x => x.admin)).length ∧
        l.any (fun x => x.admin) = users.any (fun x => x.admin)) := by
  intro users
  induction users with
  | nil => intro l h; cases h
  | cons v rest ih =>
    intro l h
    rw [updateFirstUserHash] at h
    by_cases hv : v.name = name
    · rw [if_pos hv] at h
      by_cases hh : v.hash = hash
      · rw [if_pos hh] at h; cases h
      · rw [if_neg hh] at h
        cases h
        rw [List.filter_cons, List.filter_cons, List.any_cons, List.any_cons]
        cases hva : v.admin <;> simp [hva]
    · rw [if_neg hv] at h
      cases hrec : updateFirstUserHash name hash rest with
      | error e => rw [hrec] at h; cases h
      | ok l2 =>
        rw [hrec] at h
        simp only [Except.map, Except.ok.injEq] at h
        subst h
        have := ih l2 hrec
        rw [List.filter_cons, List.filter_cons, List.any_cons, List.any_cons,
          this.2]
        cases hva : v.admin <;> simp [hva, this.1]

theorem mapFirstUser_facts (name : String) (f : UserInfo → UserInfo)
    (hf : ∀ u, (f u).admin = u.admin) :
    ∀ users : List UserInfo,
      (((mapFirstUser name f users).filter (fun x => x.admin)).length =
          (users.filter (fun x => x.admin)).length ∧
        (mapFirstUser name f users).any (fun x => x.admin) =
          users.any (fun x => x.admin)) := by
  intro users
  induction users with
  | nil => exact ⟨rfl, rfl⟩
  | cons v rest ih =>
    rw [mapFirstUser]
    by_cases hv : v.name = name
    · rw [if_pos hv]
      rw [List.filter_cons, List.filter_cons, List.any_cons, List.any_cons, hf v]
      cases hva : v.admin <;> simp [hva]
    · rw [if_neg hv]
      rw [List.filter_cons, List.filter_cons, List.any_cons, List.any_cons, ih.2]
      cases hva : v.admin <;> simp [hva, ih.1]

/-- C8: the empty catalog satisfies the admin invariant, and every
user-registry command preserves it: after any sequence of applied commands
at most one admin user exists and `HasAdminUser()` (the exhaustive scan)
returns true exactly when the `AdminUserExists` cache is set. -/
theorem admin_invariant_preserved :
    adminInvariant ({} : Data) ∧
      ∀ d c, adminInvariant d → adminInvariant (applyUserCmd d c).1 := by
  constructor
  · exact ⟨by decide, by decide⟩
  · rintro d c ⟨hcount, hflag⟩
    cases c with
    | createUserCmd n h a r =>
      show adminInvariant (d.createUser n h a r).1
      unfold Data.createUser
      by_cases hn : n = ""
      · rw [if_pos hn]; exact ⟨hcount, hflag⟩
      rw [if_neg hn]
      by_cases hex : (d.getUser n).isSome
      · rw [if_pos hex]; exact ⟨hcount, hflag⟩
      rw [if_neg hex]
      by_cases hforb : a = true ∧ d.hasAdminUser = true
      · rw [if_pos (by simpa using hforb)]; exact ⟨hcount, hflag⟩
      rw [if_neg (by simpa using hforb)]
      cases ha : a with
      | true =>
        have hno : d.hasAdminUser = false := by
          cases hadm : d.hasAdminUser with
          | false => rfl
          | true => exact absurd ⟨ha, hadm⟩ hforb
        have hzero : (d.users.filter (fun x => x.admin)).length = 0 := by
          rw [List.length_eq_zero, List.filter_eq_nil_iff]
          intro x hx
          have hx2 := List.any_eq_false.mp hno x hx
          simpa using hx2
        constructor
        · show ((d.users ++
              ([{ name := n, hash := h, admin := true, rwuser := r }] :
                List UserInfo)).filter (fun u => u.admin)).length ≤ 1
          rw [List.filter_append]
          simp [hzero]
        · show (d.users ++
              ([{ name := n, hash := h, admin := true, rwuser := r }] :
                List UserInfo)).any (fun u => u.admin) = true
          rw [List.any_append]
          simp
      | false =>
        constructor
        · show ((d.users ++
              ([{ name := n, hash := h, admin := false, rwuser := r }] :
                List UserInfo)).filter (fun u => u.admin)).length ≤ 1
          rw [List.filter_append]
          simpa using hcount
        · show (d.users ++
              ([{ name := n, hash := h, admin := false, rwuser := r }] :
                List UserInfo)).any (fun u => u.admin) = d.adminUserExists
          rw [List.any_append]
          simpa using hflag
    | dropUserCmd n =>
      show adminInvariant (d.dropUser n).1
      unfold Data.dropUser
      cases hget : d.getUser n with
      | some u =>
        dsimp only
        cases hua : u.admin with
        | true => exact ⟨hcount, hflag⟩
        | false =>
          cases hrem : removeFirstUser n d.users with
          | none => exact ⟨hcount, hflag⟩
          | some l =>
            have hfacts := removeFirstUser_facts n d.users l u hget hua hrem
            refine ⟨?_, ?_⟩
            · show (l.filter (fun u => u.admin)).length ≤ 1
              rw [hfacts.1]; exact hcount
            · show l.any (fun u => u.admin) = d.adminUserExists
              rw [hfacts.2]; exact hflag
      | none =>
        cases hrem : removeFirstUser n d.users with
        | none => exact ⟨hcount, hflag⟩
        | some l =>
          rw [removeFirstUser_none n d.users hget] at hrem
          cases hrem
    | updateUserCmd n h =>
      show adminInvariant (d.updateUser n h).1
      unfold Data.updateUser
      cases hup : updateFirstUserHash n h d.users with
      | error e => exact ⟨hcount, hflag⟩
      | ok l =>
        have hfacts := updateFirstUserHash_facts n h d.users l hup
        refine ⟨?_, ?_⟩
        · show (l.filter (fun u => u.admin)).length ≤ 1
          rw [hfacts.1]; exact hcount
        · show l.any (fun u => u.admin) = d.adminUserExists
          rw [hfacts.2]; exact hflag
    | setPrivilegeCmd n db p =>
      show adminInvariant (d.setPrivilege n db p).1
      unfold Data.setPrivilege
      cases hget : d.getUser n with
      | none => exact ⟨hcount, hflag⟩
      | some u =>
        cases hdb : d.getDatabase db with
        | error e => exact ⟨hcount, hflag⟩
        | ok dbi =>
          have hfacts := mapFirstUser_facts n
            (fun u => { u with privileges := (db, p) :: u.privileges })
            (fun _ => rfl) d.users
          refine ⟨?_, ?_⟩
          · show ((mapFirstUser n
                (fun u => { u with privileges := (db, p) :: u.privileges })
                d.users).filter (fun u => u.admin)).length ≤ 1
            rw [hfacts.1]; exact hcount
          · show (mapFirstUser n
                (fun u => { u with privileges := (db, p) :: u.privileges })
                d.users).any (fun u => u.admin) = d.adminUserExists
            rw [hfacts.2]; exact hflag
    | setAdminPrivilegeCmd n a =>
      show adminInvariant (d.setAdminPrivilege n a).1
      unfold Data.setAdminPrivilege
      cases hget : d.getUser n with
      | none => exact ⟨hcount, hflag⟩
      | some u => exact ⟨hcount, hflag⟩

/-- Witness for C8: creating an admin in the empty catalog keeps the
invariant. -/
theorem admin_invariant_preserved_witness :
    adminInvariant (applyUserCmd ({} : Data)
      (.createUserCmd "root" "h" true false)).1 :=
  admin_invariant_preserved.2 ({} : Data)
    (.createUserCmd "root" "h" true false) ⟨by decide, by decide⟩

theorem markShardAt_get (shards : List ShardInfo) :
    ∀ pos j, (markShardAt shards pos).get? j =
      (shards.get? j).map
        (fun s => if j = pos then { s with markDelete := true } else s) := by
  induction shards with
  | nil => intro pos j; cases pos <;> rfl
  | cons s rest ih =>
    intro pos j
    cases pos with
    | zero =>
      cases j with
      | zero => rfl
      | succ j =>
        show rest.get? j = (rest.get? j).map
          (fun s => if j + 1 = 0 then { s with markDelete := true } else s)
        cases hr : rest.get? j <;> simp
    | succ p =>
      cases j with
      | zero => rfl
      | succ j =>
        show (markShardAt rest p).get? j = (rest.get? j).map
          (fun s => if j + 1 = p + 1 then { s with markDelete := true } else s)
        rw [ih p j]
        cases hr : rest.get? j <;> simp [Nat.succ_inj]

theorem markIndexAt_get (indexes : List IndexInfo) :
    ∀ pos j, (markIndexAt indexes pos).get? j =
      (indexes.get? j).map
        (fun s => if j = pos then { s with markDelete := true } else s) := by
  induction indexes with
  | nil => intro pos j; cases pos <;> rfl
  | cons s rest ih =>
    intro pos j
    cases pos with
    | zero =>
      cases j with
      | zero => rfl
      | succ j =>
        show rest.get? j = (rest.get? j).map
          (fun s => if j + 1 = 0 then { s with markDelete := true } else s)
        cases hr : rest.get? j <;> simp
    | succ p =>
      cases j with
      | zero => rfl
      | succ j =>
        show (markIndexAt rest p).get? j = (rest.get? j).map
          (fun s => if j + 1 = p + 1 then { s with markDelete := true } else s)
        rw [ih p j]
        cases hr : rest.get? j <;> simp [Nat.succ_inj]

theorem pruneSGPass_eq_filter_map (id : Nat) :
    ∀ gs : List ShardGroupInfo,
      pruneSGPass id gs = (gs.map (markSGGroup id)).filter
        (fun g => !((g.deletedAt != 0) && sgCanDelete g)) := by
  intro gs
  induction gs with
  | nil => rfl
  | cons g rest ih =>
    rw [pruneSGPass, List.map_cons, List.filter_cons]
    by_cases hc : (markSGGroup id g).deletedAt ≠ 0 ∧ sgCanDelete (markSGGroup id g)
    · rw [if_pos hc, ih]
      have hb : (!(((markSGGroup id g).deletedAt != 0) &&
          sgCanDelete (markSGGroup id g))) = false := by
        simp only [Bool.not_eq_false', Bool.and_eq_true, bne_iff_ne]
        exact ⟨hc.1, hc.2⟩
      rw [hb]
      simp
    · rw [if_neg hc, ih]
      have hb : (!(((markSGGroup id g).deletedAt != 0) &&
          sgCanDelete (markSGGroup id g))) = true := by
        simp only [Bool.not_eq_true', Bool.and_eq_false_iff]
        by_cases h1 : (markSGGroup id g).deletedAt = 0
        · left; simp [h1]
        · right
          cases h2 : sgCanDelete (markSGGroup id g) with
          | false => rfl
          | true => exact absurd ⟨h1, h2⟩ hc
      rw [hb]
      simp

theorem pruneIGPass_eq_filter_map (id : Nat) :
    ∀ gs : List IndexGroupInfo,
      pruneIGPass id gs = (gs.map (markIGGroup id)).filter
        (fun g => !(igCanDelete g)) := by
  intro gs
  induction gs with
  | nil => rfl
  | cons g rest ih =>
    rw [pruneIGPass, List.map_cons, List.filter_cons]
    cases hc : igCanDelete (markIGGroup id g) with
    | true =>
      rw [ih]
      simp
    | false =>
      rw [ih]
      simp

theorem getDatabase_mapRetentionPolicies (d : Data)
    (f : RetentionPolicyInfo → RetentionPolicyInfo) (db : String) :
    (d.mapRetentionPolicies f).getDatabase db = (d.getDatabase db).map
      (mapRpsDb f) := by
  unfold Data.getDatabase Data.database Data.mapRetentionPolicies
  dsimp only
  rw [lookup_map_snd d.databases (mapRpsDb f) db]
  cases hdb : d.databases.lookup db with
  | none => rfl
  | some dbi =>
    by_cases hmark : dbi.markDeleted = true
    · simp [hmark, Except.map, mapRpsDb]
    · simp [hmark, Except.map, mapRpsDb]

theorem retentionPolicy_mapRetentionPolicies (d : Data)
    (f : RetentionPolicyInfo → RetentionPolicyInfo) (db rpn : String)
    (rpi : RetentionPolicyInfo) (h : d.retentionPolicy db rpn = .ok rpi) :
    (d.mapRetentionPolicies f).retentionPolicy db rpn = .ok (f rpi) := by
  unfold Data.retentionPolicy at h ⊢
  simp only [bind, Except.bind] at h ⊢
  rw [getDatabase_mapRetentionPolicies]
  cases hdb : d.getDatabase db with
  | error e => rw [hdb] at h; cases h
  | ok dbi =>
    rw [hdb] at h
    dsimp only at h
    simp only [Except.map]
    unfold DatabaseInfo.getRetentionPolicy at h ⊢
    unfold mapRpsDb
    dsimp only at h ⊢
    rw [lookup_map_snd dbi.retentionPolicies f rpn]
    cases hrp : dbi.retentionPolicies.lookup rpn with
    | none => rw [hrp] at h; cases h
    | some rp =>
      rw [hrp] at h
      cases h
      rfl

/-- The claimed (amended) shape of one prune pass over shard groups:
mark per group, then drop the removable groups. -/
def markFilterSG (id : Nat) (gs : List ShardGroupInfo) : List ShardGroupInfo :=
  (gs.map (markSGGroup id)).filter
    (fun g => !((g.deletedAt != 0) && sgCanDelete g))

/-- The claimed (amended) shape of one prune pass over index groups: the
removal test has no `deleted_at` component. -/
def markFilterIG (id : Nat) (gs : List IndexGroupInfo) : List IndexGroupInfo :=
  (gs.map (markIGGroup id)).filter (fun g => !(igCanDelete g))

/-- C6 counterexample: pruning with id 2 a group whose shards have ids 1
and 2 marks only shard 2 — shard 1, with id 1 ≤ 2, stays unmarked although
the claim demands every shard with id ≤ 2 be marked; and
`pruneIndexGroups` removes a fully marked index group whose `deleted_at`
is zero, although the claim requires a non-zero `deleted_at`. -/
theorem prune_counterexample :
    ((exDataP.pruneShardGroups 2).retentionPolicy "db" "rp").map
        (fun rp => rp.shardGroups.map (fun g => g.shards.map
          (fun s => s.markDelete))) = .ok [[false, true]] ∧
    ((exDataP.pruneIndexGroups 2).retentionPolicy "db" "rp").map
        (fun rp => rp.indexGroups) = .ok [] ∧
    exIG.deletedAt = 0 ∧ (exIG.indexes.map (fun i => i.id)) = [1, 2] := by
  refine ⟨by rfl, by rfl, by rfl, by rfl⟩

/-- C6 amended: `pruneShardGroups(id)` marks, in each group whose
first-to-last shard-id span contains `id`, exactly the shard found by the
binary search (the first shard with id ≥ `id`) — not every shard with
id ≤ `id` — and removes exactly the groups whose shards are then all
marked and whose `deleted_at` is non-zero; `pruneIndexGroups(id)` marks
analogously but removes every fully marked group regardless of
`deleted_at`. -/
theorem prune_groups_spec :
    (∀ id : Nat, ∀ gs : List ShardGroupInfo,
      pruneSGPass id gs = markFilterSG id gs) ∧
    (∀ id : Nat, ∀ gs : List IndexGroupInfo,
      pruneIGPass id gs = markFilterIG id gs) ∧
    (∀ id : Nat, ∀ g : ShardGroupInfo, ∀ j : Nat,
      (markSGGroup id g).shards.get? j = (g.shards.get? j).map
        (fun s => if sgIdInRange id g = true ∧ j = searchShardPos id g.shards
          then { s with markDelete := true } else s)) ∧
    (∀ id : Nat, ∀ g : IndexGroupInfo, ∀ j : Nat,
      (markIGGroup id g).indexes.get? j = (g.indexes.get? j).map
        (fun s => if igIdInRange id g = true ∧ j = searchIndexPos id g.indexes
          then { s with markDelete := true } else s)) ∧
    (∀ d : Data, ∀ id : Nat, ∀ db rpn : String, ∀ rpi : RetentionPolicyInfo,
      d.retentionPolicy db rpn = .ok rpi →
      (d.pruneShardGroups id).retentionPolicy db rpn =
        .ok { rpi with shardGroups := markFilterSG id rpi.shardGroups } ∧
      (d.pruneIndexGroups id).retentionPolicy db rpn =
        .ok { rpi with indexGroups := markFilterIG id rpi.indexGroups }) := by
  refine ⟨fun id gs => pruneSGPass_eq_filter_map id gs,
    fun id gs => pruneIGPass_eq_filter_map id gs, ?_, ?_, ?_⟩
  · intro id g j
    unfold markSGGroup
    by_cases hr : sgIdInRange id g = true
    · rw [if_pos hr]
      show (markShardAt g.shards (searchShardPos id g.shards)).get? j = _
      rw [markShardAt_get]
      cases hg : g.shards.get? j with
      | none => rfl
      | some s => simp [hr]
    · rw [if_neg hr]
      cases hg : g.shards.get? j with
      | none => rfl
      | some s => simp [hr]
  · intro id g j
    unfold markIGGroup
    by_cases hr : igIdInRange id g = true
    · rw [if_pos hr]
      show (markIndexAt g.indexes (searchIndexPos id g.indexes)).get? j = _
      rw [markIndexAt_get]
      cases hg : g.indexes.get? j with
      | none => rfl
      | some s => simp [hr]
    · rw [if_neg hr]
      cases hg : g.indexes.get? j with
      | none => rfl
      | some s => simp [hr]
  · intro d id db rpn rpi h
    constructor
    · unfold Data.pruneShardGroups
      rw [retentionPolicy_mapRetentionPolicies d
        (fun rp => { rp with shardGroups := pruneSGPass id rp.shardGroups })
        db rpn rpi h, pruneSGPass_eq_filter_map]
      rfl
    · unfold Data.pruneIndexGroups
      rw [retentionPolicy_mapRetentionPolicies d
        (fun rp => { rp with indexGroups := pruneIGPass id rp.indexGroups })
        db rpn rpi h, pruneIGPass_eq_filter_map]
      rfl

/-- Witness for C6 at the concrete state `exDataP`. -/
theorem prune_groups_spec_witness :
    (exDataP.pruneShardGroups 2).retentionPolicy "db" "rp" =
      .ok { name := "rp", shardGroups := markFilterSG 2 [exSG],
            indexGroups := [exIG] } :=
  (prune_groups_spec.2.2.2.2 exDataP 2 "db" "rp"
    { name := "rp", shardGroups := [exSG], indexGroups := [exIG] } (by rfl)).1

theorem sortSGByStart_append_sorted (l : List ShardGroupInfo)
    (g : ShardGroupInfo)
    (hs : List.Sorted (fun a b : ShardGroupInfo => a.startTime ≤ b.startTime) l)
    (hle : ∀ x ∈ l, x.startTime ≤ g.startTime) :
    sortSGByStart (l ++ [g]) = l ++ [g] :=
  insertionSort_append_last _ _ _ hs hle

theorem sortIGByStart_append_sorted (l : List IndexGroupInfo)
    (g : IndexGroupInfo)
    (hs : List.Sorted (fun a b : IndexGroupInfo => a.startTime ≤ b.startTime) l)
    (hle : ∀ x ∈ l, x.startTime ≤ g.startTime) :
    sortIGByStart (l ++ [g]) = l ++ [g] :=
  insertionSort_append_last _ _ _ hs hle

/-- The end time `createIndexGroup` (re-sharding helper) computes: the last
shard group's end, replaced by the end of the last index group overlapping
`[st, lastEnd]` when one exists. -/
def reshardEndTime (rp : RetentionPolicyInfo) (st : Int) : Int :=
  let endTime0 := ((rp.shardGroups.getLast?).map (fun g => g.endTime)).getD 0
  match rp.indexGroups.reverse.find? (fun ig => igOverlaps ig st endTime0) with
  | some ig => ig.endTime
  | none => endTime0

/-- The index group the re-sharding helper appends: fresh ids, one index
per effective pt, and the zero engine type. -/
def igAppended (d : Data) (db : String) (rp : RetentionPolicyInfo)
    (st : Int) : IndexGroupInfo :=
  { id := d.maxIndexGroupID + 1, startTime := st,
    endTime := reshardEndTime rp st,
    indexes := (List.range (d.getEffectivePtNum db)).map
      (fun i => { id := d.maxIndexID + i + 1, owners := [i] }) }

/-- The shard group `CreateShardGroupWithBounds` appends, expressed against
the pre-state (counters of `d`, groups of `rp`): `|bounds| + 1` shards,
bounds-partitioned, owners and index ids taken from the appended index
group. -/
def sgAppended (d : Data) (db : String) (rp : RetentionPolicyInfo)
    (st : Int) (bounds : List String) (et : Nat) : ShardGroupInfo :=
  let igi := igAppended d db rp st
  let lastEnd := ((rp.shardGroups.getLast?).map (fun g => g.endTime)).getD 0
  let lastTier := ((rp.shardGroups.getLast?).bind
    (fun g => g.shards.head?)).elim 0 (fun s => s.tier)
  let shardN := bounds.length + 1
  let ptNum := d.getEffectivePtNum db
  { id := d.maxShardGroupID + 1, startTime := st, endTime := lastEnd,
    engineType := et,
    shards := (List.range shardN).map (fun i =>
      let s : ShardInfo := { id := d.maxShardID + i + 1, tier := lastTier }
      let s := match (List.range ptNum).find? (fun ptId => ptId % shardN = i) with
        | some ptId =>
          { s with owners := [ptId],
                   indexID := ((igi.indexes.get? ptId).map (fun x => x.id)).getD 0 }
        | none => s
      let s := if i ≠ shardN - 1 then { s with max := (bounds.get? i).getD "" } else s
      if 0 < i then { s with min := (bounds.get? (i - 1)).getD "" } else s) }

/-- Full evaluation of a successful `ReSharding` under the normal-state
hypotheses: the target is the newest group, and both group lists are
start-sorted below the split point, so both sorts are appends. -/
theorem reSharding_success_eq (d : Data) (info : ReShardingInfo)
    (rp : RetentionPolicyInfo) (last : ShardGroupInfo)
    (hrp : d.retentionPolicy info.database info.rp = .ok rp)
    (hlast : rp.shardGroups.getLast? = some last)
    (hid : last.id = info.shardGroupID)
    (hsortIG : List.Sorted
      (fun a b : IndexGroupInfo => a.startTime ≤ b.startTime) rp.indexGroups)
    (hleIG : ∀ ig ∈ rp.indexGroups, ig.startTime ≤ info.splitTime + 1)
    (hsortSG : List.Sorted
      (fun a b : ShardGroupInfo => a.startTime ≤ b.startTime) rp.shardGroups)
    (hleSG : ∀ g ∈ rp.shardGroups, g.startTime ≤ info.splitTime + 1) :
    d.reSharding info =
      ({ d with maxIndexGroupID := d.maxIndexGroupID + 1,
                maxIndexID :=
                  d.maxIndexID + d.getEffectivePtNum info.database,
                maxShardGroupID := d.maxShardGroupID + 1,
                maxShardID :=
                  d.maxShardID + (info.bounds.length + 1) }.setRP
          info.database info.rp
          { rp with
            indexGroups := rp.indexGroups ++
              [igAppended d info.database rp (info.splitTime + 1)],
            shardGroups := rp.shardGroups ++
              [sgAppended d info.database rp (info.splitTime + 1)
                info.bounds last.engineType] }, none) := by
  unfold Data.reSharding
  rw [hrp]
  dsimp only
  rw [hlast]
  dsimp only
  rw [if_neg (by simp [hid])]
  unfold Data.createIndexGroupAppend
  dsimp only
  rw [sortIGByStart_append_sorted rp.indexGroups _ hsortIG
    (by intro x hx; exact hleIG x hx)]
  unfold Data.createShardGroupWithBounds
  dsimp only
  rw [List.getLast?_concat rp.indexGroups]
  rw [sortSGByStart_append_sorted rp.shardGroups _ hsortSG
    (by intro x hx; exact hleSG x hx)]
  rfl

theorem find_range_mod (n i : Nat) (h : i < n) :
    (List.range n).find? (fun p => p % n = i) = some i := by
  have hsplit : n = i + (n - i) := by omega
  rw [hsplit, List.range_add, List.find?_append]
  have h1 : (List.range i).find? (fun p => decide (p % (i + (n - i)) = i)) =
      none := by
    rw [List.find?_eq_none]
    intro a ha
    have halt : a < i := List.mem_range.mp ha
    simp only [decide_eq_true_eq]
    rw [Nat.mod_eq_of_lt (by omega)]
    omega
  rw [h1]
  obtain ⟨k, hk⟩ : ∃ k, n - i = k + 1 := ⟨n - i - 1, by omega⟩
  rw [show List.range (n - i) = List.range (k + 1) from by rw [hk]]
  rw [List.range_succ_eq_map]
  simp only [List.map_cons, List.find?]
  have h3 : i % (i + (n - i)) = i := Nat.mod_eq_of_lt (by omega)
  rw [show (decide ((i + 0) % (i + (n - i)) = i)) = true from by simp [h3]]
  simp

theorem retentionPolicy_setRP (d : Data) (db policy : String)
    (rp0 rp2 : RetentionPolicyInfo)
    (h : d.retentionPolicy db policy = .ok rp0) :
    (d.setRP db policy rp2).retentionPolicy db policy = .ok rp2 := by
  unfold Data.retentionPolicy Data.getDatabase Data.database
    DatabaseInfo.getRetentionPolicy at h ⊢
  simp only [bind, Except.bind] at h ⊢
  unfold Data.setRP
  cases hdb : d.databases.lookup db with
  | none => rw [hdb] at h; dsimp only at h; cases h
  | some dbi =>
    rw [hdb] at h
    dsimp only at h
    dsimp only
    rw [lookup_updateAssoc_self _ hdb]
    dsimp only
    by_cases hmark : dbi.markDeleted = true
    · rw [if_pos hmark] at h
      cases h
    · rw [if_neg hmark] at h
      rw [if_neg hmark]
      dsimp only at h ⊢
      cases hrp : dbi.retentionPolicies.lookup policy with
      | none => rw [hrp] at h; dsimp only at h; cases h
      | some rpx =>
        rw [lookup_updateAssoc_self rp2 hrp]

theorem igAppended_index (d : Data) (db : String)
    (rp : RetentionPolicyInfo) (st : Int) (i : Nat)
    (hi : i < d.getEffectivePtNum db) :
    (igAppended d db rp st).indexes.get? i =
      some { id := d.maxIndexID + i + 1, owners := [i] } := by
  unfold igAppended
  dsimp only
  exact get?_range_map _ _ _ hi

theorem sgAppended_shard (d : Data) (db : String) (rp : RetentionPolicyInfo)
    (st : Int) (bounds : List String) (et : Nat) (i : Nat)
    (hi : i < bounds.length + 1)
    (hpt : d.getEffectivePtNum db = bounds.length + 1) :
    (sgAppended d db rp st bounds et).shards.get? i = some
      { id := d.maxShardID + i + 1,
        owners := [i],
        indexID := d.maxIndexID + i + 1,
        tier := ((rp.shardGroups.getLast?).bind
          (fun g => g.shards.head?)).elim 0 (fun s => s.tier),
        min := if i = 0 then "" else (bounds.get? (i - 1)).getD "",
        max := if i = bounds.length then "" else (bounds.get? i).getD "" } := by
  unfold sgAppended
  dsimp only
  rw [get?_range_map _ _ _ hi]
  have hfind : (List.range (d.getEffectivePtNum db)).find?
      (fun ptId => ptId % (bounds.length + 1) = i) = some i := by
    rw [hpt]
    exact find_range_mod _ _ hi
  rw [hfind]
  dsimp only
  rw [igAppended_index d db rp st i (by omega)]
  by_cases hl : i ≠ bounds.length + 1 - 1
  · rw [if_pos hl]
    by_cases hz : (0 : Nat) < i
    · rw [if_pos hz]
      have h0 : ¬ i = 0 := by omega
      have hbl : ¬ i = bounds.length := by omega
      rw [if_neg h0, if_neg hbl]
      rfl
    · rw [if_neg hz]
      have h0 : i = 0 := by omega
      have hbl : ¬ i = bounds.length := by omega
      rw [if_pos h0, if_neg hbl]
      rfl
  · rw [if_neg hl]
    by_cases hz : (0 : Nat) < i
    · rw [if_pos hz]
      have hbl : i = bounds.length := by omega
      have h0 : ¬ i = 0 := by omega
      rw [if_neg h0, if_pos hbl]
      rfl
    · rw [if_neg hz]
      have h0 : i = 0 := by omega
      have hbl : i = bounds.length := by omega
      rw [if_pos h0, if_pos hbl]
      rfl

/-- C3: re-sharding a group that is not the RP's newest fails with
`ShardGroupAlreadyReSharding` and leaves the catalog unchanged; on the
newest group it appends a new shard group of `|bounds| + 1` shards where
shard 0 carries `max = bounds[0]`, shard `i` carries `min = bounds[i-1]`
and `max = bounds[i]`, the last shard carries no max, shard `i` owns
exactly pt `i` (the unique pt congruent to `i` modulo the shard count when
the effective pt count equals it), and each shard's `index_id` is the id
at the same pt position of the freshly appended index group. -/
theorem reSharding_spec (d : Data) (info : ReShardingInfo)
    (rp : RetentionPolicyInfo) (last : ShardGroupInfo)
    (hrp : d.retentionPolicy info.database info.rp = .ok rp)
    (hlast : rp.shardGroups.getLast? = some last) :
    (last.id ≠ info.shardGroupID →
        d.reSharding info = (d, some .shardGroupAlreadyReSharding)) ∧
    (last.id = info.shardGroupID →
      List.Sorted (fun a b : IndexGroupInfo => a.startTime ≤ b.startTime)
        rp.indexGroups →
      (∀ ig ∈ rp.indexGroups, ig.startTime ≤ info.splitTime + 1) →
      List.Sorted (fun a b : ShardGroupInfo => a.startTime ≤ b.startTime)
        rp.shardGroups →
      (∀ g ∈ rp.shardGroups, g.startTime ≤ info.splitTime + 1) →
      d.getEffectivePtNum info.database = info.bounds.length + 1 →
      ∃ d2 rp2, d.reSharding info = (d2, none) ∧
        d2.retentionPolicy info.database info.rp = .ok rp2 ∧
        ∃ sgNew igNew,
          rp2.shardGroups = rp.shardGroups ++ [sgNew] ∧
          rp2.indexGroups = rp.indexGroups ++ [igNew] ∧
          sgNew.startTime = info.splitTime + 1 ∧
          sgNew.endTime = last.endTime ∧
          sgNew.engineType = last.engineType ∧
          sgNew.shards.length = info.bounds.length + 1 ∧
          igNew.startTime = info.splitTime + 1 ∧
          igNew.indexes.length = info.bounds.length + 1 ∧
          (∀ i, i < info.bounds.length + 1 → ∃ s,
            sgNew.shards.get? i = some s ∧
            s.owners = [i] ∧
            (igNew.indexes.get? i).map (fun x => x.id) = some s.indexID ∧
            s.max = (if i = info.bounds.length then ""
                     else (info.bounds.get? i).getD "") ∧
            s.min = (if i = 0 then ""
                     else (info.bounds.get? (i - 1)).getD ""))) := by
  constructor
  · intro hne
    unfold Data.reSharding
    rw [hrp]
    dsimp only
    rw [hlast]
    dsimp only
    rw [if_pos hne]
  · intro hid hsortIG hleIG hsortSG hleSG hptNum
    rw [reSharding_success_eq d info rp last hrp hlast hid hsortIG hleIG
      hsortSG hleSG]
    refine ⟨_, _, rfl, retentionPolicy_setRP _ info.database info.rp rp _
        (by exact hrp),
      sgAppended d info.database rp (info.splitTime + 1) info.bounds
        last.engineType,
      igAppended d info.database rp (info.splitTime + 1),
      rfl, rfl, rfl, ?_, rfl, ?_, rfl, ?_, ?_⟩
    · show (((rp.shardGroups.getLast?).map (fun g => g.endTime)).getD 0) =
        last.endTime
      rw [hlast]
      rfl
    · exact length_range_map _ _
    · show ((List.range (d.getEffectivePtNum info.database)).map _).length =
        info.bounds.length + 1
      rw [length_range_map, hptNum]
    · intro i hi
      refine ⟨_, sgAppended_shard d info.database rp (info.splitTime + 1)
        info.bounds last.engineType i hi hptNum, rfl, ?_, rfl, rfl⟩
      rw [igAppended_index d info.database rp (info.splitTime + 1) i
        (by omega)]
      rfl

/-- The retention policy of `exData1` (after the shard-group create). -/
def exRp1 : RetentionPolicyInfo :=
  match exData1.retentionPolicy "db" "rp" with
  | .ok rp => rp
  | .error _ => { name := "" }

/-- The newest shard group of `exRp1`. -/
def exSG1 : ShardGroupInfo :=
  (exRp1.shardGroups.getLast?).getD
    { id := 0, startTime := 0, endTime := 0, shards := [] }

/-- Witness for C3: re-sharding the newest group of `exData1` (the S2
scenario) succeeds. -/
theorem reSharding_spec_witness : (exData1.reSharding exRSInfo).2 = none := by
  obtain ⟨d2, rp2, heq, -⟩ :=
    (reSharding_spec exData1 exRSInfo exRp1 exSG1 (by rfl) (by rfl)).2
      (by rfl) (by decide) (by decide) (by decide) (by decide) (by rfl)
  rw [heq]

theorem shardLinked_mono {igs igs2 : List IndexGroupInfo}
    {sg : ShardGroupInfo} {s : ShardInfo}
    (hsub : ∀ ig ∈ igs, ig ∈ igs2) (h : shardLinked igs sg s) :
    shardLinked igs2 sg s := by
  rcases h with h | ⟨ig, hig, hrest⟩
  · exact Or.inl h
  · exact Or.inr ⟨ig, hsub ig hig, hrest⟩

theorem overlap_of_contains (ig : IndexGroupInfo) (sg : ShardGroupInfo)
    (ts : Int) (h1 : igContains ig ts = true) (h2 : sgContains sg ts = true) :
    ig.startTime < sg.endTime ∧ sg.startTime < ig.endTime := by
  simp only [igContains, Bool.decide_and, Bool.and_eq_true,
    decide_eq_true_eq] at h1
  simp only [sgContains, Bool.decide_and, Bool.and_eq_true,
    decide_eq_true_eq] at h2
  omega

theorem retentionPolicy_mem (d : Data) (db rpn : String)
    (rp : RetentionPolicyInfo) (h : d.retentionPolicy db rpn = .ok rp) :
    ∃ p ∈ d.databases, ∃ q ∈ p.2.retentionPolicies, q.2 = rp := by
  unfold Data.retentionPolicy Data.getDatabase Data.database
    DatabaseInfo.getRetentionPolicy at h
  simp only [bind, Except.bind] at h
  cases hdb : d.databases.lookup db with
  | none => rw [hdb] at h; dsimp only at h; cases h
  | some dbi =>
    rw [hdb] at h
    dsimp only at h
    by_cases hmark : dbi.markDeleted = true
    · rw [if_pos hmark] at h; cases h
    · rw [if_neg hmark] at h
      dsimp only at h
      cases hrp : dbi.retentionPolicies.lookup rpn with
      | none => rw [hrp] at h; cases h
      | some rpx =>
        rw [hrp] at h
        dsimp only at h
        injection h with h2
        exact ⟨(db, dbi), lookup_mem hdb, (rpn, rpx), lookup_mem hrp, h2⟩

theorem rpLinked_of_retentionPolicy (d : Data) (db rpn : String)
    (rp : RetentionPolicyInfo) (hd : dataLinked d)
    (h : d.retentionPolicy db rpn = .ok rp) : rpLinked rp := by
  obtain ⟨p, hp, q, hq, hqeq⟩ := retentionPolicy_mem d db rpn rp h
  exact hqeq ▸ hd p hp q hq

theorem dataLinked_setRP (d : Data) (db policy : String)
    (rp3 : RetentionPolicyInfo) (hd : dataLinked d) (hrp3 : rpLinked rp3) :
    dataLinked (d.setRP db policy rp3) := by
  unfold Data.setRP
  cases hdb : d.databases.lookup db with
  | none => exact hd
  | some dbi =>
    dsimp only
    intro p hp q hq
    rcases mem_updateAssoc hp with hp1 | hp1
    · exact hd p hp1 q hq
    · have hq2 : q ∈ updateAssoc dbi.retentionPolicies policy rp3 := by
        have := hp1.2
        rw [this] at hq
        exact hq
      rcases mem_updateAssoc hq2 with hq1 | hq1
      · exact hd (db, dbi) (lookup_mem hdb) q hq1
      · rw [hq1.2]
        exact hrp3

theorem reSharding_notNewest_eq (d : Data) (info : ReShardingInfo)
    (rp : RetentionPolicyInfo) (last : ShardGroupInfo)
    (hrp : d.retentionPolicy info.database info.rp = .ok rp)
    (hlast : rp.shardGroups.getLast? = some last)
    (hne : last.id ≠ info.shardGroupID) :
    d.reSharding info = (d, some .shardGroupAlreadyReSharding) := by
  unfold Data.reSharding
  rw [hrp]
  dsimp only
  rw [hlast]
  dsimp only
  rw [if_pos hne]

theorem reshardEndTime_gt (rp : RetentionPolicyInfo) (st : Int)
    (last : ShardGroupInfo) (hlast : rp.shardGroups.getLast? = some last)
    (h : st < last.endTime) : st < reshardEndTime rp st := by
  unfold reshardEndTime
  rw [hlast]
  dsimp only
  show st < (match rp.indexGroups.reverse.find?
      (fun ig => igOverlaps ig st last.endTime) with
    | some ig => ig.endTime
    | none => last.endTime)
  cases hfind : rp.indexGroups.reverse.find?
      (fun ig => igOverlaps ig st last.endTime) with
  | none => exact h
  | some ig =>
    have := List.find?_some hfind
    simp only [igOverlaps, Bool.decide_and, Bool.and_eq_true,
      decide_eq_true_eq] at this
    exact this.2

theorem mem_sortIGByStart (l : List IndexGroupInfo) (a : IndexGroupInfo) :
    a ∈ sortIGByStart l ↔ a ∈ l := by
  unfold sortIGByStart
  exact mem_insertionSort _ _ _

theorem mem_sortSGByStart (l : List ShardGroupInfo) (a : ShardGroupInfo) :
    a ∈ sortSGByStart l ↔ a ∈ l := by
  unfold sortSGByStart
  exact mem_insertionSort _ _ _

theorem createIndexGroup_facts (d : Data) (rp : RetentionPolicyInfo)
    (ts : Int) (et ptNum : Nat) (higd : 0 < rp.indexGroupDuration)
    (hts : ts ≤ maxNanoTime) :
    (∀ ig ∈ rp.indexGroups,
        ig ∈ (d.createIndexGroup rp ts et ptNum).2.1.indexGroups) ∧
    (d.createIndexGroup rp ts et ptNum).2.1.shardGroups = rp.shardGroups ∧
    (d.createIndexGroup rp ts et ptNum).2.2 ∈
      (d.createIndexGroup rp ts et ptNum).2.1.indexGroups ∧
    igContains (d.createIndexGroup rp ts et ptNum).2.2 ts = true ∧
    ptNum ≤ (d.createIndexGroup rp ts et ptNum).2.2.indexes.length ∧
    (∀ j : Fin (d.createIndexGroup rp ts et ptNum).2.2.indexes.length,
      ((d.createIndexGroup rp ts et ptNum).2.2.indexes.get j).owners =
        [(j : Nat)]) ∧
    (∀ ig ∈ (d.createIndexGroup rp ts et ptNum).2.1.indexGroups,
      ig ∈ rp.indexGroups ∨ ig = (d.createIndexGroup rp ts et ptNum).2.2) := by
  unfold Data.createIndexGroup
  dsimp only
  refine ⟨?_, rfl, ?_, ?_, ?_, ?_, ?_⟩
  · intro ig hig
    rw [mem_sortIGByStart]
    exact List.mem_append_left _ hig
  · rw [mem_sortIGByStart]
    exact List.mem_append_right _ (List.mem_singleton.mpr rfl)
  · simp only [igContains, Bool.decide_and, Bool.and_eq_true,
      decide_eq_true_eq]
    refine ⟨truncateTime_le ts rp.indexGroupDuration higd, ?_⟩
    refine lt_min (lt_truncateTime_add ts rp.indexGroupDuration higd) ?_
    unfold maxNanoTime at hts ⊢
    omega
  · rw [length_range_map]
  · intro j
    simp [List.get_eq_getElem, List.getElem_map, List.getElem_range]
  · intro ig hig
    rw [mem_sortIGByStart] at hig
    rcases List.mem_append.mp hig with h | h
    · exact Or.inl h
    · exact Or.inr (List.mem_singleton.mp h)

theorem createIndexGroupIfNeeded_facts (d : Data) (rp : RetentionPolicyInfo)
    (ts : Int) (et ptNum : Nat) (hwf : igWellFormed rp)
    (higd : 0 < rp.indexGroupDuration) (hts : ts ≤ maxNanoTime) :
    (∀ ig ∈ rp.indexGroups,
        ig ∈ (d.createIndexGroupIfNeeded rp ts et ptNum).2.1.indexGroups) ∧
    (d.createIndexGroupIfNeeded rp ts et ptNum).2.1.shardGroups =
      rp.shardGroups ∧
    (d.createIndexGroupIfNeeded rp ts et ptNum).2.2 ∈
      (d.createIndexGroupIfNeeded rp ts et ptNum).2.1.indexGroups ∧
    igContains (d.createIndexGroupIfNeeded rp ts et ptNum).2.2 ts = true ∧
    ptNum ≤ (d.createIndexGroupIfNeeded rp ts et ptNum).2.2.indexes.length ∧
    (∀ j : Fin (d.createIndexGroupIfNeeded rp ts et ptNum).2.2.indexes.length,
      ((d.createIndexGroupIfNeeded rp ts et ptNum).2.2.indexes.get j).owners =
        [(j : Nat)]) ∧
    igWellFormed (d.createIndexGroupIfNeeded rp ts et ptNum).2.1 := by
  have hfresh := createIndexGroup_facts d rp ts et ptNum higd hts
  have hwf2 : igWellFormed (d.createIndexGroup rp ts et ptNum).2.1 := by
    intro ig hig j
    rcases hfresh.2.2.2.2.2.2 ig hig with h | h
    · exact hwf ig h j
    · subst h
      exact hfresh.2.2.2.2.2.1 j
  unfold Data.createIndexGroupIfNeeded
  by_cases hempty : rp.indexGroups = []
  · rw [if_pos hempty]
    exact ⟨hfresh.1, hfresh.2.1, hfresh.2.2.1, hfresh.2.2.2.1,
      hfresh.2.2.2.2.1, hfresh.2.2.2.2.2.1, hwf2⟩
  · rw [if_neg hempty]
    cases hfind : rp.indexGroups.find?
        (fun ig => ig.engineType = et ∧ igContains ig ts) with
    | none =>
      exact ⟨hfresh.1, hfresh.2.1, hfresh.2.2.1, hfresh.2.2.2.1,
        hfresh.2.2.2.2.1, hfresh.2.2.2.2.2.1, hwf2⟩
    | some ig =>
      dsimp only
      have higmem := List.mem_of_find?_eq_some hfind
      have higprop := List.find?_some hfind
      simp only [Bool.decide_and, Bool.and_eq_true, decide_eq_true_eq] at higprop
      by_cases hlen : ptNum ≤ ig.indexes.length
      · rw [if_pos hlen]
        refine ⟨fun x hx => hx, rfl, higmem, ?_, hlen, ?_, hwf⟩
        · exact higprop.2
        · intro j
          exact hwf ig higmem j
      · rw [if_neg hlen]
        exact ⟨hfresh.1, hfresh.2.1, hfresh.2.2.1, hfresh.2.2.2.1,
          hfresh.2.2.2.2.1, hfresh.2.2.2.2.2.1, hwf2⟩

theorem newShardGroup_contains (d : Data) (rp : RetentionPolicyInfo)
    (ts : Int) (et ver : Nat) (hsgd : 0 < rp.shardGroupDuration)
    (hts : ts ≤ maxNanoTime) :
    sgContains (d.newShardGroup rp ts et ver).2 ts = true := by
  unfold Data.newShardGroup
  dsimp only
  simp only [sgContains, Bool.decide_and, Bool.and_eq_true, decide_eq_true_eq]
  refine ⟨truncateTime_le ts rp.shardGroupDuration hsgd, ?_⟩
  refine lt_min (lt_truncateTime_add ts rp.shardGroupDuration hsgd) ?_
  unfold maxNanoTime at hts ⊢
  omega

theorem createShards_facts (d : Data) (db : String) (sgi : ShardGroupInfo)
    (igi : IndexGroupInfo) (rp : RetentionPolicyInfo)
    (msti : MeasurementInfo) (tier : Nat) :
    (d.createShards db sgi igi rp msti tier).2.startTime = sgi.startTime ∧
    (d.createShards db sgi igi rp msti tier).2.endTime = sgi.endTime ∧
    (d.createShards db sgi igi rp msti tier).2.engineType = sgi.engineType ∧
    ∀ s ∈ (d.createShards db sgi igi rp msti tier).2.shards,
      s.owners = [] ∨ ∃ i, i < d.getEffectivePtNum db ∧ s.owners = [i] ∧
        s.indexID = ((igi.indexes.get? i).map (fun x => x.id)).getD 0 := by
  refine ⟨rfl, rfl, rfl, ?_⟩
  unfold Data.createShards
  dsimp only
  generalize hmm : (if msti.shardKeys ≠ [] ∧
      (msti.shardKeys.headD {}).typ = "range" then
    rp.shardGroups.getLast? else none) = mm
  intro s hs
  obtain ⟨i, hi, rfl⟩ := List.mem_map.mp hs
  have hirange := List.mem_range.mp hi
  by_cases hlt : i < d.getEffectivePtNum db
  · right
    refine ⟨i, hlt, ?_⟩
    rw [if_pos hlt]
    cases mm with
    | none => exact ⟨rfl, rfl⟩
    | some lastg =>
      dsimp only
      cases hget : lastg.shards.get? i with
      | none => exact ⟨rfl, rfl⟩
      | some ls => exact ⟨rfl, rfl⟩
  · left
    rw [if_neg hlt]
    cases mm with
    | none => rfl
    | some lastg =>
      dsimp only
      cases hget : lastg.shards.get? i with
      | none => rfl
      | some ls => rfl

theorem get?_eq_get_of_lt {α : Type} (l : List α) (i : Nat)
    (h : i < l.length) : l.get? i = some (l.get ⟨i, h⟩) := by
  simp [List.get?_eq_getElem?, List.getElem?_eq_getElem h, List.get_eq_getElem]

theorem getEffectivePtNum_congr (d2 d : Data) (db : String)
    (h1 : d2.databases = d.databases)
    (h2 : d2.clusterPtNum = d.clusterPtNum)
    (h3 : d2.replicaGroups = d.replicaGroups) :
    d2.getEffectivePtNum db = d.getEffectivePtNum db := by
  unfold Data.getEffectivePtNum Data.dbReplicaN Data.dbRepGroups
  rw [h1, h2, h3]

theorem dataLinked_databases_eq (d d2 : Data)
    (h : d2.databases = d.databases) (hd : dataLinked d) : dataLinked d2 := by
  unfold dataLinked
  rw [h]
  exact hd

theorem createIndexGroupIfNeeded_frame (d : Data) (rp : RetentionPolicyInfo)
    (ts : Int) (et n : Nat) :
    (d.createIndexGroupIfNeeded rp ts et n).1.databases = d.databases ∧
    (d.createIndexGroupIfNeeded rp ts et n).1.clusterPtNum = d.clusterPtNum ∧
    (d.createIndexGroupIfNeeded rp ts et n).1.replicaGroups =
      d.replicaGroups ∧
    (d.createIndexGroupIfNeeded rp ts et n).2.1.shardGroupDuration =
      rp.shardGroupDuration := by
  unfold Data.createIndexGroupIfNeeded Data.createIndexGroup
  split
  · exact ⟨rfl, rfl, rfl, rfl⟩
  · split
    · split
      · exact ⟨rfl, rfl, rfl, rfl⟩
      · exact ⟨rfl, rfl, rfl, rfl⟩
    · exact ⟨rfl, rfl, rfl, rfl⟩

theorem igAppended_len (d : Data) (db : String) (rp : RetentionPolicyInfo)
    (st : Int) :
    (igAppended d db rp st).indexes.length = d.getEffectivePtNum db := by
  unfold igAppended
  exact length_range_map _ _

theorem igAppended_get (d : Data) (db : String) (rp : RetentionPolicyInfo)
    (st : Int) :
    ∀ j : Fin (igAppended d db rp st).indexes.length,
      (igAppended d db rp st).indexes.get j =
        { id := d.maxIndexID + (j : Nat) + 1, owners := [(j : Nat)] } := by
  unfold igAppended
  intro j
  simp [List.get_eq_getElem, List.getElem_map, List.getElem_range]

theorem igAppended_wf (d : Data) (db : String) (rp : RetentionPolicyInfo)
    (st : Int) :
    ∀ j : Fin (igAppended d db rp st).indexes.length,
      ((igAppended d db rp st).indexes.get j).owners = [(j : Nat)] := by
  intro j
  rw [igAppended_get d db rp st j]

theorem sgAppended_endTime (d : Data) (db : String)
    (rp : RetentionPolicyInfo) (st : Int) (bounds : List String) (et : Nat)
    (last : ShardGroupInfo) (hlast : rp.shardGroups.getLast? = some last) :
    (sgAppended d db rp st bounds et).endTime = last.endTime := by
  show ((rp.shardGroups.getLast?).map (fun g => g.endTime)).getD 0 =
    last.endTime
  rw [hlast]
  rfl

theorem sgAppended_owners (d : Data) (db : String) (rp : RetentionPolicyInfo)
    (st : Int) (bounds : List String) (et : Nat) :
    ∀ s ∈ (sgAppended d db rp st bounds et).shards,
      s.owners = [] ∨ ∃ i, i < d.getEffectivePtNum db ∧ s.owners = [i] ∧
        s.indexID =
          (((igAppended d db rp st).indexes.get? i).map
            (fun x => x.id)).getD 0 := by
  unfold sgAppended
  dsimp only
  intro s hs
  obtain ⟨i, hi, rfl⟩ := List.mem_map.mp hs
  cases hfind : (List.range (d.getEffectivePtNum db)).find?
      (fun ptId => ptId % (bounds.length + 1) = i) with
  | none =>
    left
    by_cases h2 : (0 : Nat) < i
    · rw [if_pos h2]
      by_cases h1 : i ≠ bounds.length + 1 - 1
      · rw [if_pos h1]
      · rw [if_neg h1]
    · rw [if_neg h2]
      by_cases h1 : i ≠ bounds.length + 1 - 1
      · rw [if_pos h1]
      · rw [if_neg h1]
  | some ptId =>
    right
    have hpt := List.mem_range.mp (List.mem_of_find?_eq_some hfind)
    refine ⟨ptId, hpt, ?_⟩
    by_cases h2 : (0 : Nat) < i
    · rw [if_pos h2]
      by_cases h1 : i ≠ bounds.length + 1 - 1
      · rw [if_pos h1]
        exact ⟨rfl, rfl⟩
      · rw [if_neg h1]
        exact ⟨rfl, rfl⟩
    · rw [if_neg h2]
      by_cases h1 : i ≠ bounds.length + 1 - 1
      · rw [if_pos h1]
        exact ⟨rfl, rfl⟩
      · rw [if_neg h1]
        exact ⟨rfl, rfl⟩

/-- C1, counterexample to the engine-type clause: starting from `exData`
(no shard groups, invariant trivially true), `CreateShardGroup` on engine
type 1 succeeds and keeps the full invariant, but a following successful
`ReSharding` appends an index group whose engine type is never assigned
(it stays 0, as in the source's lower-case `createIndexGroup`), so the new
engine-1 shard group's shards have no covering index group of matching
engine type — while the invariant without the engine clause still holds. -/
theorem reSharding_breaks_engine_link :
    dataLinkedEngine exData ∧
    (exData.createShardGroup "db" "rp" 5 1 1 0).2 = none ∧
    dataLinkedEngine exData1 ∧
    (exData1.reSharding exRSInfo).2 = none ∧
    ¬ dataLinkedEngine exData2 ∧
    dataLinked exData2 :=
  ⟨by decide, by decide, by decide, by decide, by decide, by decide⟩

/-- C1 (amended, the engine-type clause dropped): the shard-to-index link
invariant — every owned shard of every shard group carries the id, at
position `owners[0]`, of an index whose group's time range overlaps the
shard group and whose owners equal the shard's — is preserved by the two
commands that create shards. `CreateShardGroup` preserves it on any
catalog whose retention policies have positive durations and a timestamp
within range; `ReSharding` preserves it on a normal-state catalog (target
group resolvable, group lists start-sorted at or below the split point,
split point strictly inside the newest group). -/
theorem shard_index_links_preserved :
    (∀ (d : Data) (db policy : String) (ts : Int) (tier et ver : Nat),
      dataLinked d →
      (∀ p ∈ d.databases, ∀ q ∈ p.2.retentionPolicies,
        0 < q.2.shardGroupDuration ∧ 0 < q.2.indexGroupDuration) →
      ts ≤ maxNanoTime →
      dataLinked (d.createShardGroup db policy ts tier et ver).1) ∧
    (∀ (d : Data) (info : ReShardingInfo) (rp : RetentionPolicyInfo)
        (last : ShardGroupInfo),
      dataLinked d →
      d.retentionPolicy info.database info.rp = .ok rp →
      rp.shardGroups.getLast? = some last →
      List.Sorted (fun a b : IndexGroupInfo => a.startTime ≤ b.startTime)
        rp.indexGroups →
      (∀ ig ∈ rp.indexGroups, ig.startTime ≤ info.splitTime + 1) →
      List.Sorted (fun a b : ShardGroupInfo => a.startTime ≤ b.startTime)
        rp.shardGroups →
      (∀ g ∈ rp.shardGroups, g.startTime ≤ info.splitTime + 1) →
      info.splitTime + 1 < last.endTime →
      dataLinked (d.reSharding info).1) := by
  constructor
  · intro d db policy ts tier et ver hd hdur hts
    unfold Data.createShardGroup
    cases hcs : d.checkStoreReady with
    | some e => exact hd
    | none =>
      dsimp only
      cases hrp : d.retentionPolicy db policy with
      | error e => exact hd
      | ok rp =>
        dsimp only
        by_cases hcov : (rp.shardGroupByTimestampAndEngineType ts et).isSome
        · rw [if_pos hcov]
          exact hd
        · rw [if_neg hcov]
          cases hms : rp.measurements.head? with
          | none => exact hd
          | some pmst =>
            cases pmst with
            | mk mn msti =>
            dsimp only
            obtain ⟨p, hp, q, hq, hqeq⟩ :=
              retentionPolicy_mem d db policy rp hrp
            have hdur2 := hdur p hp q hq
            rw [hqeq] at hdur2
            have hrpL : rpLinked rp :=
              rpLinked_of_retentionPolicy d db policy rp hd hrp
            have hfacts := createIndexGroupIfNeeded_facts d rp ts et
              (d.getEffectivePtNum db) hrpL.1 hdur2.2 hts
            have hframe := createIndexGroupIfNeeded_frame d rp ts et
              (d.getEffectivePtNum db)
            cases hci : d.createIndexGroupIfNeeded rp ts et
                (d.getEffectivePtNum db) with
            | mk d2 rest =>
            cases rest with
            | mk rp2 igi =>
            rw [hci] at hfacts hframe
            dsimp only at hfacts hframe ⊢
            have hnsf :
                (d2.newShardGroup rp2 ts et ver).1.databases = d2.databases ∧
                (d2.newShardGroup rp2 ts et ver).1.clusterPtNum =
                  d2.clusterPtNum ∧
                (d2.newShardGroup rp2 ts et ver).1.replicaGroups =
                  d2.replicaGroups := ⟨rfl, rfl, rfl⟩
            have hcont0 := newShardGroup_contains d2 rp2 ts et ver
              (by rw [hframe.2.2.2]; exact hdur2.1) hts
            cases hns : d2.newShardGroup rp2 ts et ver with
            | mk d3 sgi =>
            rw [hns] at hnsf hcont0
            dsimp only at hnsf hcont0 ⊢
            have hcsf := createShards_facts d3 db sgi igi rp2 msti tier
            have hcsframe :
                (d3.createShards db sgi igi rp2 msti tier).1.databases =
                  d3.databases := rfl
            cases hcsh : d3.createShards db sgi igi rp2 msti tier with
            | mk d4 sgi2 =>
            rw [hcsh] at hcsf hcsframe
            dsimp only at hcsf hcsframe ⊢
            apply dataLinked_setRP
            · exact dataLinked_databases_eq d d4
                (by rw [hcsframe, hnsf.1, hframe.1]) hd
            · constructor
              · exact hfacts.2.2.2.2.2.2
              · intro sg hsg s hs
                have hsg2 : sg ∈ rp2.shardGroups ++ [sgi2] :=
                  (mem_sortSGByStart _ _).mp hsg
                rcases List.mem_append.mp hsg2 with hold | hnew
                · rw [hfacts.2.1] at hold
                  exact shardLinked_mono hfacts.1 (hrpL.2 sg hold s hs)
                · have hsgeq := List.mem_singleton.mp hnew
                  subst hsgeq
                  rcases hcsf.2.2.2 s hs with hemp | ⟨i, hilt, hown, hind⟩
                  · exact Or.inl hemp
                  · right
                    have hieff : i < d.getEffectivePtNum db := by
                      rw [getEffectivePtNum_congr d3 d db
                        (by rw [hnsf.1, hframe.1])
                        (by rw [hnsf.2.1, hframe.2.1])
                        (by rw [hnsf.2.2, hframe.2.2.1])] at hilt
                      exact hilt
                    have hj : i < igi.indexes.length :=
                      lt_of_lt_of_le hieff hfacts.2.2.2.2.1
                    have hov := overlap_of_contains igi sgi ts
                      hfacts.2.2.2.1 hcont0
                    refine ⟨igi, hfacts.2.2.1, ?_, ?_, ⟨i, hj⟩, ?_, ?_, ?_⟩
                    · rw [hcsf.2.1]
                      exact hov.1
                    · rw [hcsf.1]
                      exact hov.2
                    · rw [hown]
                      rfl
                    · rw [hind, get?_eq_get_of_lt igi.indexes i hj]
                      rfl
                    · rw [hown]
                      exact hfacts.2.2.2.2.2.1 ⟨i, hj⟩
  · intro d info rp last hd hrp hlast hsortIG hleIG hsortSG hleSG hsplit
    by_cases hid : last.id = info.shardGroupID
    · rw [reSharding_success_eq d info rp last hrp hlast hid hsortIG hleIG
        hsortSG hleSG]
      have hrpL : rpLinked rp :=
        rpLinked_of_retentionPolicy d info.database info.rp rp hd hrp
      apply dataLinked_setRP
      · exact dataLinked_databases_eq d _ rfl hd
      · constructor
        · intro ig hig
          rcases List.mem_append.mp hig with hold | hnew
          · exact hrpL.1 ig hold
          · have heq := List.mem_singleton.mp hnew
            subst heq
            exact igAppended_wf d info.database rp (info.splitTime + 1)
        · intro sg hsg s hs
          rcases List.mem_append.mp hsg with hold | hnew
          · exact shardLinked_mono
              (fun ig2 h2 => List.mem_append_left _ h2)
              (hrpL.2 sg hold s hs)
          · have heq := List.mem_singleton.mp hnew
            subst heq
            rcases sgAppended_owners d info.database rp (info.splitTime + 1)
                info.bounds last.engineType s hs with
              hemp | ⟨i, hilt, hown, hind⟩
            · exact Or.inl hemp
            · right
              have hlt2 : i < (igAppended d info.database rp
                  (info.splitTime + 1)).indexes.length := by
                rw [igAppended_len]
                exact hilt
              have hget := igAppended_get d info.database rp
                (info.splitTime + 1) ⟨i, hlt2⟩
              refine ⟨igAppended d info.database rp (info.splitTime + 1),
                List.mem_append_right _ (List.mem_singleton.mpr rfl),
                ?_, ?_, ⟨i, hlt2⟩, ?_, ?_, ?_⟩
              · rw [sgAppended_endTime d info.database rp
                  (info.splitTime + 1) info.bounds last.engineType last hlast]
                exact hsplit
              · exact reshardEndTime_gt rp (info.splitTime + 1) last hlast
                  hsplit
              · rw [hown]
                rfl
              · rw [hget, hind,
                  igAppended_index d info.database rp (info.splitTime + 1)
                    i hilt]
                rfl
              · rw [hget, hown]
    · rw [reSharding_notNewest_eq d info rp last hrp hlast hid]
      exact hd

/-- Witness for C1 at the S2 scenario states: `CreateShardGroup` on
`exData` and `ReSharding` on `exData1` both preserve the link
invariant. -/
theorem shard_index_links_preserved_witness :
    dataLinked (exData.createShardGroup "db" "rp" 5 1 1 0).1 ∧
    dataLinked (exData1.reSharding exRSInfo).1 :=
  ⟨shard_index_links_preserved.1 exData "db" "rp" 5 1 1 0 (by decide)
      (by decide) (by decide),
    shard_index_links_preserved.2 exData1 exRSInfo exRp1 exSG1 (by decide)
      (by rfl) (by rfl) (by decide) (by decide) (by decide) (by decide)
      (by decide)⟩

end OpenGeminiMeta
